import Mathlib

/-!
Verification of the HexoChecker content-linting engine against its
natural-language specification.

Python strings are modelled as `List Char` (`PyStr`); `pathlib.Path`
values as a root flag plus a segment list; the filesystem as an explicit
list of entries.  Machine integers are `Int`/`Nat` (Python integers are
unbounded, so no wrap-around modelling is needed).  Fallible operations
return `Option`.
-/

set_option maxRecDepth 10000

namespace Checks

/-- Python `str` modelled as a list of characters. -/
abbrev PyStr := List Char

/-- String literal to `PyStr` conversion used for concrete inputs. -/
def pys (s : String) : PyStr := s.toList

/-- The line-boundary characters recognised by Python `str.splitlines`. -/
def isLineBreakChar (c : Char) : Bool :=
  c = '\n' || c = '\r' || c = '\x0b' || c = '\x0c' ||
  c = '\x1c' || c = '\x1d' || c = '\x1e' || c = '\x85' ||
  c = '\u2028' || c = '\u2029'

/-- Python `str.splitlines(keepends=True)`: split into lines, each keeping
its terminator (`\r\n` counts as a single terminator). -/
def splitlinesKE : PyStr → List PyStr
  | [] => []
  | c :: rest =>
    if c = '\r' then
      match rest with
      | [] => [[c]]
      | d :: rest2 =>
        if d = '\n' then [c, d] :: splitlinesKE rest2
        else [c] :: splitlinesKE (d :: rest2)
    else if isLineBreakChar c then [c] :: splitlinesKE rest
    else
      match splitlinesKE rest with
      | [] => [[c]]
      | l :: ls => (c :: l) :: ls

/-- Python `str.splitlines()` (without keepends). -/
def splitlinesNE : PyStr → List PyStr
  | [] => []
  | c :: rest =>
    if c = '\r' then
      match rest with
      | [] => [[]]
      | d :: rest2 =>
        if d = '\n' then [] :: splitlinesNE rest2
        else [] :: splitlinesNE (d :: rest2)
    else if isLineBreakChar c then [] :: splitlinesNE rest
    else
      match splitlinesNE rest with
      | [] => [[c]]
      | l :: ls => (c :: l) :: ls

/-- Python `str.find`: index of the first occurrence of `pat` in `s`. -/
def findSub (s pat : PyStr) : Option Nat :=
  (List.range (s.length + 1)).find? (fun i => pat.isPrefixOf (s.drop i))

/-- Python `str.replace(old, new, 1)`: replace the first occurrence. -/
def replaceFirst (s old new : PyStr) : PyStr :=
  match findSub s old with
  | none => s
  | some i => s.take i ++ new ++ s.drop (i + old.length)

/-- Python `str.count(pat)` for a non-empty pattern
(non-overlapping occurrences, scanning left to right). -/
def countOccur (s pat : PyStr) : Nat := go (s.length + 1) s where
  go : Nat → PyStr → Nat
  | 0, _ => 0
  | _ + 1, [] => 0
  | fuel + 1, s@(_ :: rest) =>
    if pat.isPrefixOf s then 1 + go fuel (s.drop pat.length)
    else go fuel rest

/-- Split on a separator character, Python `str.split(sep)` semantics. -/
def splitOnChar (sep : Char) : PyStr → List PyStr
  | [] => [[]]
  | c :: rest =>
    let r := splitOnChar sep rest
    if c = sep then [] :: r
    else
      match r with
      | [] => [[c]]
      | l :: ls => (c :: l) :: ls

/-- Index of the last occurrence of a character (Python `str.rfind`). -/
def rfindChar (s : PyStr) (c : Char) : Option Nat :=
  (((s.enum).filter (fun p => p.2 = c)).map (fun p => p.1)).getLast?

/-- Decimal rendering of a natural number. -/
def natStr (n : Nat) : PyStr := (toString n).toList

/-- Decimal rendering of a Python integer (`str(i)`). -/
def intStr (i : Int) : PyStr := (toString i).toList

/-- Parse a run of decimal digits (`int(s)` on the digit prefix used by
the patch parser). -/
def parseNat (s : PyStr) : Nat :=
  s.foldl (fun acc c => if c.isDigit then acc * 10 + (c.toNat - 48) else acc) 0

/-! ### A model of `pathlib.Path` and of the filesystem -/

/-- `pathlib.PurePosixPath`: a root flag plus normalised segments
(`pathlib` drops `.` segments and empty segments). -/
structure PyPath where
  absolute : Bool
  parts : List PyStr
  deriving DecidableEq, Repr

/-- Segments contributed by a path string (pathlib drops empty and `.`). -/
def pathSegsOf (s : PyStr) : List PyStr :=
  (splitOnChar '/' s).filter (fun seg => seg ≠ [] ∧ seg ≠ ['.'])

/-- `Path(s)` built from a string. -/
def PyPath.ofStr (s : PyStr) : PyPath :=
  ⟨s.head? = some '/', pathSegsOf s⟩

/-- `p / s` for a string `s` (an absolute string replaces the base). -/
def PyPath.joinStr (p : PyPath) (s : PyStr) : PyPath :=
  if s.head? = some '/' then ⟨true, pathSegsOf s⟩
  else ⟨p.absolute, p.parts ++ pathSegsOf s⟩

/-- `Path.parent`. -/
def PyPath.parent (p : PyPath) : PyPath := ⟨p.absolute, p.parts.dropLast⟩

/-- `Path.name`. -/
def PyPath.name (p : PyPath) : PyStr := (p.parts.getLast?).getD []

/-- `Path.stem`: the name with its final suffix removed (a leading dot or
a trailing dot does not count as a suffix separator, as in pathlib). -/
def PyPath.stem (p : PyPath) : PyStr :=
  let n := p.name
  match rfindChar n '.' with
  | none => n
  | some i => if 0 < i ∧ i < n.length - 1 then n.take i else n

/-- `Path.relative_to`: the remainder when `base` is a path prefix,
`none` where pathlib raises `ValueError`. -/
def PyPath.relTo (p base : PyPath) : Option PyPath :=
  if p.absolute = base.absolute ∧ base.parts.isPrefixOf p.parts then
    some ⟨false, p.parts.drop base.parts.length⟩
  else none

/-- `Path.is_relative_to`. -/
def PyPath.isRelTo (p base : PyPath) : Bool := (p.relTo base).isSome

/-- `Path.as_posix`. -/
def PyPath.as_posix (p : PyPath) : PyStr :=
  if p.absolute then '/' :: (List.intercalate ['/'] p.parts)
  else if p.parts = [] then ['.']
  else List.intercalate ['/'] p.parts

/-- One filesystem entry: a path plus whether it is a regular file
(`false` means directory). -/
structure FSEntry where
  path : PyPath
  isFile : Bool
  deriving DecidableEq, Repr

/-- The filesystem as explicit data, standing in for the real disk the
Python code probes with `Path.exists`, `iterdir`, `is_file`, `is_dir`. -/
structure FS where
  entries : List FSEntry
  deriving DecidableEq, Repr

/-- `Path.exists()` against the modelled filesystem. -/
def FS.existsPath (fs : FS) (p : PyPath) : Bool :=
  fs.entries.any (fun e => e.path = p)

/-- `Path.iterdir()`: the direct children of `p`, in entry order. -/
def FS.iterdir (fs : FS) (p : PyPath) : List FSEntry :=
  fs.entries.filter (fun e =>
    e.path.absolute = p.absolute ∧
    e.path.parts.length = p.parts.length + 1 ∧
    p.parts.isPrefixOf e.path.parts)

/-- File names of the regular files directly inside `p`. -/
def FS.fileNamesIn (fs : FS) (p : PyPath) : List PyStr :=
  ((fs.iterdir p).filter (fun e => e.isFile)).map (fun e => e.path.name)

/-- Names of the directories directly inside `p`. -/
def FS.dirNamesIn (fs : FS) (p : PyPath) : List PyStr :=
  ((fs.iterdir p).filter (fun e => !e.isFile)).map (fun e => e.path.name)

/-! ### The Fix data model (`src/checks/core/issue.py`) -/

/-- `Fix` from `issue.py`: a concrete text substitution. -/
structure Fix where
  original : PyStr
  replacement : PyStr
  line : Int
  start_col : Option Nat := none
  end_col : Option Nat := none
  description : PyStr := []
  deriving DecidableEq, Repr

/-- `Fix.apply_to_line` from `issue.py`: with no start column, replace the
first textual occurrence of `original`; with a start column, splice the
replacement over the span `[start_col, end)` where `end` defaults to
`start_col + len(original)` (Python slice semantics clamp at the ends). -/
def Fix.apply_to_line (f : Fix) (line_content : PyStr) : PyStr :=
  match f.start_col with
  | none => replaceFirst line_content f.original f.replacement
  | some c =>
    let e := f.end_col.getD (c + f.original.length)
    line_content.take c ++ f.replacement ++ line_content.drop e

/-- `Severity` from `issue.py`. -/
inductive Severity where
  | error | warning | info
  deriving DecidableEq, Repr

/-- `Issue` from `issue.py` (the context-lines attachment is irrelevant
to the claims and omitted; `metadata` is the dict as an ordered list). -/
structure Issue where
  file : PyPath
  line : Int
  itype : PyStr
  message : PyStr
  original : PyStr
  checker : PyStr
  column : Option Nat := none
  suggestion : Option PyStr := none
  severity : Severity := .error
  metadata : List (PyStr × PyStr) := []
  deriving DecidableEq, Repr

/-- `Issue.has_suggestion`. -/
def Issue.has_suggestion (i : Issue) : Bool := i.suggestion.isSome

/-- `Issue.get_fix` from `issue.py`. -/
def Issue.get_fix (i : Issue) : Option Fix :=
  match i.suggestion with
  | none => none
  | some s =>
    some ⟨i.original, s, i.line, i.column, none,
      pys "Fix " ++ i.itype ++ pys ": " ++ i.message⟩

/-! ### The fix engine data model (`src/checks/fixers/base.py`) -/

/-- `FixAction` from `base.py`. -/
inductive FixAction where
  | accept | skip | accept_all | quit
  deriving DecidableEq, Repr

/-- `FixResult` from `base.py`. -/
structure FixResult where
  issue : Issue
  action : FixAction
  fix : Option Fix := none
  applied : Bool := false
  error : Option PyStr := none
  deriving DecidableEq, Repr

/-! ### The per-file pass of the Patch fixer (`src/checks/fixers/patch.py`) -/

/-- One step of Python's stable descending-by-line sort: insert before the
first element whose line number is strictly smaller, keeping the original
order of equal keys (the semantics of `sorted(key=line, reverse=True)`). -/
def insertByLineDesc (x : Issue) : List Issue → List Issue
  | [] => [x]
  | y :: ys =>
    if x.line < y.line then y :: insertByLineDesc x ys else x :: y :: ys

/-- `sorted(issues, key=lambda i: i.line, reverse=True)`, stable. -/
def sortByLineDesc (l : List Issue) : List Issue :=
  l.foldr insertByLineDesc []

/-- Lines 98-100 of `patch.py`: make sure the last split line ends with a
newline (`if lines and not lines[-1].endswith("\n"): lines[-1] += "\n"`). -/
def ensure_last_newline (lines : List PyStr) : List PyStr :=
  match lines.getLast? with
  | none => lines
  | some l =>
    if l.getLast? = some '\n' then lines
    else lines.dropLast ++ [l ++ ['\n']]

/-- The loop body of `PatchFixer._fix_file` (lines 102-129 of `patch.py`):
apply one issue's fix to the working line list, or record a skip. -/
def applyFixStep (st : List PyStr × List FixResult) (issue : Issue) :
    List PyStr × List FixResult :=
  let (lines, results) := st
  match issue.get_fix with
  | none =>
    (lines, results ++ [⟨issue, .skip, none, false, some (pys "No fix available")⟩])
  | some fix =>
    let line_idx : Int := issue.line - 1
    if 0 ≤ line_idx ∧ line_idx < (lines.length : Int) then
      let idx := line_idx.toNat
      (lines.set idx (fix.apply_to_line (lines.getD idx [])),
       results ++ [⟨issue, .accept, some fix, false, none⟩])
    else
      (lines,
       results ++ [⟨issue, .skip, none, false,
         some (pys "Line " ++ intStr issue.line ++ pys " out of range")⟩])

/-- The content transformation of `PatchFixer._fix_file`: sort the file's
issues by descending line number, split the content into lines keeping
terminators, normalise the final newline, then apply each fix bottom-up.
Returns the final line list and the per-issue results. -/
def fix_file_lines (content : PyStr) (issues : List Issue) :
    List PyStr × List FixResult :=
  let sorted := sortByLineDesc issues
  let lines := ensure_last_newline (splitlinesKE content)
  sorted.foldl applyFixStep (lines, [])

/-! ### The parts of `difflib` the program relies on
(`difflib.unified_diff` in `patch.py`, `difflib.get_close_matches` in the
resolvers), translated from CPython's `difflib.py`.  Every call site
passes `isjunk=None`, so the junk set `bjunk` is always empty and the two
junk-adjacent extension loops of `find_longest_match` never run; the
`autojunk` "popular element" pruning of `b2j` is kept. -/

/-- Association-list lookup. -/
def alistGet [DecidableEq κ] (m : List (κ × β)) (k : κ) : Option β :=
  (m.find? (fun p => p.1 = k)).map (fun p => p.2)

/-- Association-list update (`d[k] = v`). -/
def alistSet [DecidableEq κ] (m : List (κ × β)) (k : κ) (v : β) : List (κ × β) :=
  if (m.find? (fun p => p.1 = k)).isSome then
    m.map (fun p => if p.1 = k then (k, v) else p)
  else m ++ [(k, v)]

/-- `b2j`: map each element of `b` to the ascending list of its indices,
then drop "popular" elements when `autojunk` applies (`len(b) >= 200`). -/
def b2jBuild [DecidableEq α] (b : List α) : List (α × List Nat) :=
  let m := b.enum.foldl
    (fun m p =>
      alistSet m p.2 (((alistGet m p.2).getD []) ++ [p.1]))
    ([] : List (α × List Nat))
  if 200 ≤ b.length then
    let ntest := b.length / 100 + 1
    m.filter (fun kv => ¬ ntest < kv.2.length)
  else m

/-- The inner `for j in b2j.get(a[i], [])` loop of `find_longest_match`:
skip indices below `blo`, stop at the first index at or past `bhi`,
extend runs recorded in `j2len`. -/
def flmInner (blo bhi i : Nat) :
    List Nat → List (Nat × Nat) → List (Nat × Nat) → Nat × Nat × Nat →
    List (Nat × Nat) × (Nat × Nat × Nat)
  | [], _, newj2len, best => (newj2len, best)
  | j :: js, j2len, newj2len, best =>
    if j < blo then flmInner blo bhi i js j2len newj2len best
    else if bhi ≤ j then (newj2len, best)
    else
      let k := (alistGet j2len (j - 1)).getD 0 + 1
      let newj2len' := alistSet newj2len j k
      let best' := if best.2.2 < k then (i + 1 - k, j + 1 - k, k) else best
      flmInner blo bhi i js j2len newj2len' best'

/-- The backward extension loop of `find_longest_match` (empty junk set).
The first argument is structural fuel; the caller passes the initial
`besti`, which bounds the iteration count, so the loop never stops
early. -/
def flmBack [DecidableEq α] (a b : List α) (alo blo : Nat) :
    Nat → Nat → Nat → Nat → Nat × Nat × Nat
  | 0, besti, bestj, bestsize => (besti, bestj, bestsize)
  | fuel + 1, besti, bestj, bestsize =>
    if alo < besti ∧ blo < bestj ∧
        (a[besti - 1]?).isSome ∧ a[besti - 1]? = b[bestj - 1]? then
      flmBack a b alo blo fuel (besti - 1) (bestj - 1) (bestsize + 1)
    else (besti, bestj, bestsize)

/-- The forward extension loop of `find_longest_match` (empty junk set);
fuel `ahi` bounds the iteration count. -/
def flmFwd [DecidableEq α] (a b : List α) (ahi bhi : Nat) :
    Nat → Nat → Nat → Nat → Nat × Nat × Nat
  | 0, besti, bestj, bestsize => (besti, bestj, bestsize)
  | fuel + 1, besti, bestj, bestsize =>
    if besti + bestsize < ahi ∧ bestj + bestsize < bhi ∧
        (a[besti + bestsize]?).isSome ∧
        a[besti + bestsize]? = b[bestj + bestsize]? then
      flmFwd a b ahi bhi fuel besti bestj (bestsize + 1)
    else (besti, bestj, bestsize)

/-- `SequenceMatcher.find_longest_match` over `[alo, ahi) × [blo, bhi)`. -/
def find_longest_match [DecidableEq α] (a b : List α)
    (b2j : List (α × List Nat)) (alo ahi blo bhi : Nat) : Nat × Nat × Nat :=
  let step := fun (st : List (Nat × Nat) × (Nat × Nat × Nat)) (i : Nat) =>
    let (j2len, best) := st
    let indices :=
      match a[i]? with
      | none => []
      | some ai => (alistGet b2j ai).getD []
    flmInner blo bhi i indices j2len [] best
  let (_, best) := (List.range' alo (ahi - alo)).foldl step ([], (alo, blo, 0))
  let (besti, bestj, bestsize) := best
  let (besti, bestj, bestsize) := flmBack a b alo blo besti besti bestj bestsize
  flmFwd a b ahi bhi ahi besti bestj bestsize

/-- Ascending lexicographic comparison of match triples (`list.sort()`). -/
def tripleLE (x y : Nat × Nat × Nat) : Bool :=
  x.1 < y.1 ∨ (x.1 = y.1 ∧
    (x.2.1 < y.2.1 ∨ (x.2.1 = y.2.1 ∧ x.2.2 ≤ y.2.2)))

/-- Stable insertion into an ascending triple list. -/
def insertTriple (x : Nat × Nat × Nat) :
    List (Nat × Nat × Nat) → List (Nat × Nat × Nat)
  | [] => [x]
  | y :: ys => if tripleLE y x then y :: insertTriple x ys else x :: y :: ys

/-- `matching_blocks.sort()`. -/
def sortTriples (l : List (Nat × Nat × Nat)) : List (Nat × Nat × Nat) :=
  l.foldr insertTriple []

/-- The divide-and-conquer queue loop of `get_matching_blocks` (fuelled;
each popped range that yields a match splits into strictly smaller
ranges, so the fuel below suffices). -/
def gmbLoop [DecidableEq α] (a b : List α) (b2j : List (α × List Nat)) :
    Nat → List (Nat × Nat × Nat × Nat) → List (Nat × Nat × Nat) →
    List (Nat × Nat × Nat)
  | 0, _, acc => acc
  | _ + 1, [], acc => acc
  | fuel + 1, q :: queue, acc =>
    let (alo, ahi, blo, bhi) := q
    let (i, j, k) := find_longest_match a b b2j alo ahi blo bhi
    if k ≠ 0 then
      let queue' :=
        (if alo < i ∧ blo < j then [(alo, i, blo, j)] else []) ++
        (if i + k < ahi ∧ j + k < bhi then [(i + k, ahi, j + k, bhi)] else []) ++
        queue
      gmbLoop a b b2j fuel queue' (acc ++ [(i, j, k)])
    else gmbLoop a b b2j fuel queue acc

/-- The adjacent-block merging pass at the end of `get_matching_blocks`. -/
def mergeAdjacent (la lb : Nat) :
    Nat → Nat → Nat → List (Nat × Nat × Nat) → List (Nat × Nat × Nat)
  | i1, j1, k1, [] =>
    (if k1 ≠ 0 then [(i1, j1, k1)] else []) ++ [(la, lb, 0)]
  | i1, j1, k1, (i2, j2, k2) :: rest =>
    if i1 + k1 = i2 ∧ j1 + k1 = j2 then mergeAdjacent la lb i1 j1 (k1 + k2) rest
    else
      (if k1 ≠ 0 then [(i1, j1, k1)] else []) ++ mergeAdjacent la lb i2 j2 k2 rest

/-- `SequenceMatcher.get_matching_blocks`. -/
def get_matching_blocks [DecidableEq α] (a b : List α) : List (Nat × Nat × Nat) :=
  let b2j := b2jBuild b
  let blocks := gmbLoop a b b2j (2 * (a.length + b.length) + 4)
    [(0, a.length, 0, b.length)] []
  mergeAdjacent a.length b.length 0 0 0 (sortTriples blocks)

/-- Diff opcode tags. -/
inductive DTag where
  | replace | delete | insert | equal
  deriving DecidableEq, Repr

/-- `SequenceMatcher.get_opcodes`, from the matching blocks. -/
def opcodesFrom : Nat → Nat → List (Nat × Nat × Nat) →
    List (DTag × Nat × Nat × Nat × Nat)
  | _, _, [] => []
  | i, j, (ai, bj, size) :: rest =>
    let front :=
      if i < ai ∧ j < bj then [(DTag.replace, i, ai, j, bj)]
      else if i < ai then [(DTag.delete, i, ai, j, bj)]
      else if j < bj then [(DTag.insert, i, ai, j, bj)]
      else []
    let mid :=
      if size ≠ 0 then [(DTag.equal, ai, ai + size, bj, bj + size)] else []
    front ++ mid ++ opcodesFrom (ai + size) (bj + size) rest

/-- `SequenceMatcher.get_opcodes`. -/
def get_opcodes [DecidableEq α] (a b : List α) :
    List (DTag × Nat × Nat × Nat × Nat) :=
  opcodesFrom 0 0 (get_matching_blocks a b)

/-- The group-splitting loop of `get_grouped_opcodes`. -/
def groupLoop (n : Nat) :
    List (DTag × Nat × Nat × Nat × Nat) →
    List (DTag × Nat × Nat × Nat × Nat) →
    List (List (DTag × Nat × Nat × Nat × Nat))
  | group, [] =>
    if group ≠ [] ∧ ¬ (group.length = 1 ∧ (group.head?.map (fun c => c.1)) = some DTag.equal)
    then [group] else []
  | group, (tag, i1, i2, j1, j2) :: rest =>
    if tag = DTag.equal ∧ n + n < i2 - i1 then
      let emitted := group ++ [(DTag.equal, i1, min i2 (i1 + n), j1, min j2 (j1 + n))]
      emitted :: groupLoop n [(tag, max i1 (i2 - n), i2, max j1 (j2 - n), j2)] rest
    else groupLoop n (group ++ [(tag, i1, i2, j1, j2)]) rest

/-- `SequenceMatcher.get_grouped_opcodes(n)`. -/
def get_grouped_opcodes [DecidableEq α] (a b : List α) (n : Nat) :
    List (List (DTag × Nat × Nat × Nat × Nat)) :=
  let codes := get_opcodes a b
  let codes := if codes = [] then [(DTag.equal, 0, 1, 0, 1)] else codes
  let codes :=
    match codes with
    | (DTag.equal, i1, i2, j1, j2) :: rest =>
      (DTag.equal, max i1 (i2 - n), i2, max j1 (j2 - n), j2) :: rest
    | other => other
  let codes :=
    match codes.getLast? with
    | some (DTag.equal, i1, i2, j1, j2) =>
      codes.dropLast ++ [(DTag.equal, i1, min i2 (i1 + n), j1, min j2 (j1 + n))]
    | _ => codes
  groupLoop n [] codes

/-- `difflib._format_range_unified`. -/
def formatRangeUnified (start stop : Nat) : PyStr :=
  let beginning := start + 1
  let length := stop - start
  if length = 1 then natStr beginning
  else if length = 0 then natStr (beginning - 1) ++ [','] ++ natStr 0
  else natStr beginning ++ [','] ++ natStr length

/-- `a[i1:i2]`. -/
def pySlice (l : List PyStr) (i1 i2 : Nat) : List PyStr :=
  (l.drop i1).take (i2 - i1)

/-- The per-opcode body lines of one unified-diff hunk. -/
def hunkLines (a b : List PyStr) (g : List (DTag × Nat × Nat × Nat × Nat)) :
    List PyStr :=
  g.flatMap (fun c =>
    let (tag, i1, i2, j1, j2) := c
    match tag with
    | DTag.equal => (pySlice a i1 i2).map (fun line => ' ' :: line)
    | DTag.delete => (pySlice a i1 i2).map (fun line => '-' :: line)
    | DTag.insert => (pySlice b j1 j2).map (fun line => '+' :: line)
    | DTag.replace =>
      ((pySlice a i1 i2).map (fun line => '-' :: line)) ++
      ((pySlice b j1 j2).map (fun line => '+' :: line)))

/-- `"".join(difflib.unified_diff(a, b, fromfile, tofile, n))` with the
default `lineterm="\n"` and empty dates, as used by `_fix_file`. -/
def unified_diff (a b : List PyStr) (fromfile tofile : PyStr) (n : Nat) : PyStr :=
  let groups := get_grouped_opcodes a b n
  if groups = [] then []
  else
    pys "--- " ++ fromfile ++ ['\n'] ++ pys "+++ " ++ tofile ++ ['\n'] ++
    (groups.flatMap (fun g =>
      let first := g.head?.getD (DTag.equal, 0, 0, 0, 0)
      let last := g.getLast?.getD (DTag.equal, 0, 0, 0, 0)
      pys "@@ -" ++ formatRangeUnified first.2.1 last.2.2.1 ++
      pys " +" ++ formatRangeUnified first.2.2.2.1 last.2.2.2.2 ++
      pys " @@" ++ ['\n'] ++
      (hunkLines a b g).flatten))

/-- `difflib._calculate_ratio`, over exact rationals. -/
def calcRatio (nmatch len : Nat) : ℚ :=
  if len ≠ 0 then Rat.divInt (2 * nmatch) len else 1

/-- `SequenceMatcher.ratio()` for `a` against `b`. -/
def smRatio [DecidableEq α] (a b : List α) : ℚ :=
  let nmatch := (get_matching_blocks a b).foldl (fun s t => s + t.2.2) 0
  calcRatio nmatch (a.length + b.length)

/-- `SequenceMatcher.quick_ratio()`. -/
def smQuickRatio [DecidableEq α] (a b : List α) : ℚ :=
  let fullb := b.foldl
    (fun m x => alistSet m x ((alistGet m x).getD 0 + 1))
    ([] : List (α × Nat))
  let step := fun (st : Nat × List (α × Int)) (x : α) =>
    let (m, avail) := st
    let numb : Int :=
      match alistGet avail x with
      | some v => v
      | none => ((alistGet fullb x).getD 0 : Int)
    ((if 0 < numb then m + 1 else m), alistSet avail x (numb - 1))
  let (nmatch, _) := a.foldl step (0, [])
  calcRatio nmatch (a.length + b.length)

/-- `SequenceMatcher.real_quick_ratio()`. -/
def smRealQuickRatio [DecidableEq α] (a b : List α) : ℚ :=
  calcRatio (min a.length b.length) (a.length + b.length)

/-- Strict lexicographic comparison of Python strings by code point. -/
def strLTb : PyStr → PyStr → Bool
  | [], [] => false
  | [], _ :: _ => true
  | _ :: _, [] => false
  | x :: xs, y :: ys => if x < y then true else if y < x then false else strLTb xs ys

/-- Python `<` on `(ratio, string)` score pairs. -/
def scoreLT (x y : ℚ × PyStr) : Bool :=
  x.1 < y.1 ∨ (x.1 = y.1 ∧ strLTb x.2 y.2)

/-- Stable descending insertion for `heapq.nlargest`
(`sorted(result, reverse=True)` semantics). -/
def insertScoreDesc (x : ℚ × PyStr) : List (ℚ × PyStr) → List (ℚ × PyStr)
  | [] => [x]
  | y :: ys => if scoreLT x y then y :: insertScoreDesc x ys else x :: y :: ys

/-- `difflib.get_close_matches(word, possibilities, n, cutoff)`. -/
def get_close_matches (word : PyStr) (possibilities : List PyStr)
    (n : Nat) (cutoff : ℚ) : List PyStr :=
  let scored := possibilities.filterMap (fun x =>
    if cutoff ≤ smRealQuickRatio x word ∧ cutoff ≤ smQuickRatio x word ∧
        cutoff ≤ smRatio x word
    then some (smRatio x word, x) else none)
  (((scored.foldr insertScoreDesc []).take n).map (fun p => p.2))

/-! ### The Patch fixer, session level (`src/checks/fixers/patch.py`) -/

/-- The `a/<relpath>`-style label: `file.relative_to(root)` with the
`ValueError` fallback to `file` itself, rendered with `as_posix`. -/
def relLabel (file root : PyPath) : PyStr :=
  match file.relTo root with
  | some r => r.as_posix
  | none => file.as_posix

/-- `PatchFixer._fix_file` once the content has been read: apply the fixes
bottom-up, then emit a unified diff exactly when the fixed content
differs from the original. -/
def fix_file_patch (content : PyStr) (issues : List Issue)
    (rel_path : PyStr) (context_lines : Nat) : Option PyStr × List FixResult :=
  let (lines, results) := fix_file_lines content issues
  let fixed := lines.flatten
  if content = fixed then (none, results)
  else
    (some (unified_diff (splitlinesKE content) (splitlinesKE fixed)
      (pys "a/" ++ rel_path) (pys "b/" ++ rel_path) context_lines), results)

/-- `PatchFixer._fix_file` including the read step, against the modelled
file contents (a read failure yields per-issue skips; the exception text
appended to the error message is elided). -/
def PatchFixer.fixFile (contents : List (PyPath × PyStr)) (file : PyPath)
    (issues : List Issue) (root : PyPath) (context_lines : Nat) :
    Option PyStr × List FixResult :=
  match alistGet contents file with
  | none =>
    (none, issues.map (fun i =>
      ⟨i, .skip, none, false, some (pys "Failed to read file: ")⟩))
  | some content =>
    fix_file_patch content issues (relLabel file root) context_lines

/-- Grouping by file with Python-dict insertion-order semantics
(lines 48-50 of `patch.py`). -/
def groupByFile (issues : List Issue) : List (PyPath × List Issue) :=
  issues.foldl
    (fun acc i =>
      if (acc.find? (fun p => p.1 = i.file)).isSome then
        acc.map (fun p => if p.1 = i.file then (p.1, p.2 ++ [i]) else p)
      else acc ++ [(i.file, [i])])
    []

/-- The per-file accumulation loop of `PatchFixer.fix` (lines 52-58 of
`patch.py`): collect the produced per-file patches and all results. -/
def patchFold (contents : List (PyPath × PyStr)) (root : PyPath)
    (context_lines : Nat) (fixable : List Issue) :
    List PyStr × List FixResult :=
  (groupByFile fixable).foldl
    (fun (acc : List PyStr × List FixResult) pr =>
      let (patch?, rs) := PatchFixer.fixFile contents pr.1 pr.2 root context_lines
      (acc.1 ++ (match patch? with | some p => [p] | none => []), acc.2 ++ rs))
    ([], [])

/-- Lines 69-71 of `patch.py`: mark every ACCEPT result as applied. -/
def markApplied (results : List FixResult) : List FixResult :=
  results.map (fun r =>
    if r.action = .accept then { r with applied := true } else r)

/-- `PatchFixer.fix`: filter fixable issues, group by file, produce the
per-file patches and results; when at least one diff was produced and the
run is not a dry run, save the combined patch, invoke the external apply
step — whose boolean outcome (`apply_outcome` here, the return value of
`_apply_patch` at line 66) the code discards — and mark every ACCEPT
result as applied.  Returns the session's results plus the saved combined
patch. -/
def PatchFixer.fix (issues : List Issue) (root : PyPath)
    (contents : List (PyPath × PyStr)) (dry_run : Bool)
    (apply_outcome : Bool) (context_lines : Nat) :
    List FixResult × Option PyStr :=
  let fixable := issues.filter (fun i => i.has_suggestion)
  if fixable = [] then ([], none)
  else
    let folded := patchFold contents root context_lines fixable
    if folded.1 ≠ [] ∧ ¬ dry_run then
      let _discarded_apply_outcome := apply_outcome
      (markApplied folded.2, some (List.intercalate ['\n'] folded.1))
    else (folded.2, none)

/-! ### The built-in minimal patch applier
(`PatchFixer._manual_apply_patch`) and the modelled reverse application -/

/-- Characters Python `str.split()` treats as separators. -/
def pyIsSpace (c : Char) : Bool :=
  c = ' ' || c = '\t' || c = '\n' || c = '\r' || c = '\x0b' || c = '\x0c'

/-- Python `str.split()` with no argument: split on whitespace runs. -/
def splitWS (s : PyStr) : List PyStr :=
  ((splitOnChar ' ' (s.map (fun c => if pyIsSpace c then ' ' else c))).filter
    (fun w => w ≠ []))

/-- A parsed hunk: old start line (1-based), old lines, new lines. -/
abbrev Hunk := Nat × List PyStr × List PyStr

/-- The hunk-body collection loop: consume lines until one starting with
`@@`, `---` or `+++`, sorting them into old/new lines by their marker. -/
def collectHunkBody : List PyStr → List PyStr → List PyStr →
    List PyStr × List PyStr × List PyStr
  | [], old_lines, new_lines => ([], old_lines, new_lines)
  | hline :: rest, old_lines, new_lines =>
    if (pys "@@").isPrefixOf hline ∨ (pys "---").isPrefixOf hline ∨
        (pys "+++").isPrefixOf hline then
      (hline :: rest, old_lines, new_lines)
    else if (pys "-").isPrefixOf hline then
      collectHunkBody rest (old_lines ++ [hline.drop 1]) new_lines
    else if (pys "+").isPrefixOf hline then
      collectHunkBody rest old_lines (new_lines ++ [hline.drop 1])
    else if (pys " ").isPrefixOf hline then
      collectHunkBody rest (old_lines ++ [hline.drop 1]) (new_lines ++ [hline.drop 1])
    else collectHunkBody rest old_lines new_lines

/-- The parsing loop of `_manual_apply_patch`: file headers reset the
current file's hunk list, `@@` headers read the old start line and the
hunk body.  The first argument is structural fuel; every step consumes at
least one line, so the callers' `length + 1` fuel never runs out. -/
def parsePatchLoop (root : PyPath) :
    Nat → List PyStr → Option PyPath → List (PyPath × List Hunk) →
    List (PyPath × List Hunk)
  | 0, _, _, hunks => hunks
  | _ + 1, [], _, hunks => hunks
  | fuel + 1, line :: rest, cur, hunks =>
    if (pys "--- a/").isPrefixOf line then
      match rest with
      | [] => hunks
      | next :: rest2 =>
        if (pys "+++ b/").isPrefixOf next then
          let f := root.joinStr (next.drop 6)
          parsePatchLoop root fuel rest2 (some f) (alistSet hunks f [])
        else parsePatchLoop root fuel rest2 cur hunks
    else
      match cur with
      | some f =>
        if (pys "@@").isPrefixOf line then
          let parts := splitWS line
          if 3 ≤ parts.length then
            let old_info := parts.getD 1 []
            let old_start := parseNat (((splitOnChar ',' old_info).headD []).drop 1)
            parsePatchLoop root fuel (collectHunkBody rest [] []).1 cur
              (alistSet hunks f (((alistGet hunks f).getD []) ++
                [(old_start, (collectHunkBody rest [] []).2.1,
                  (collectHunkBody rest [] []).2.2)]))
          else parsePatchLoop root fuel rest cur hunks
        else parsePatchLoop root fuel rest cur hunks
      | none => parsePatchLoop root fuel rest cur hunks

/-- One hunk replaces the slice
`file_lines[start-1 : start-1+len(old_lines)]` with the new lines. -/
def applyOneHunk (ls : List PyStr) (h : Hunk) : List PyStr :=
  let (start, old_lines, new_lines) := h
  let start_idx := start - 1
  ls.take start_idx ++ new_lines ++ ls.drop (start_idx + old_lines.length)

/-- Apply a file's hunks to its content: split without keepends, apply
hunks bottom-to-top (`reversed`), rejoin with `"\n".join(...) + "\n"`. -/
def applyHunksToContent (content : PyStr) (file_hunks : List Hunk) : PyStr :=
  let file_lines := splitlinesNE content
  let final := file_hunks.reverse.foldl applyOneHunk file_lines
  List.intercalate ['\n'] final ++ ['\n']

/-- `PatchFixer._manual_apply_patch` over the modelled contents: parse the
saved patch and rewrite each referenced file that exists (a missing file
is silently skipped). -/
def manual_apply_patch (patch_content : PyStr) (root : PyPath)
    (contents : List (PyPath × PyStr)) : List (PyPath × PyStr) :=
  let plines := splitlinesNE patch_content
  let hunks := parsePatchLoop root (plines.length + 1) plines none []
  hunks.foldl
    (fun cs pr =>
      match alistGet cs pr.1 with
      | none => cs
      | some content => alistSet cs pr.1 (applyHunksToContent content pr.2))
    contents

/-- Modelled from the spec: the reverse (undo) application performed by
the external tools invoked in `PatchFixer.undo` (`git apply -R`,
`patch -R`); the tools themselves are not part of this repository.  Per
spec sections 4.4/6, the artifact is a unified diff with
`@@ -start,count +start,count @@` hunk headers and old/new line bodies;
a conforming reverse application replaces, at each hunk's new-side start
position, the hunk's new lines with its old lines.  This parser mirrors
the built-in forward parser (including its structural fuel) but reads
the `+start` field. -/
def undoParseLoop (root : PyPath) :
    Nat → List PyStr → Option PyPath → List (PyPath × List Hunk) →
    List (PyPath × List Hunk)
  | 0, _, _, hunks => hunks
  | _ + 1, [], _, hunks => hunks
  | fuel + 1, line :: rest, cur, hunks =>
    if (pys "--- a/").isPrefixOf line then
      match rest with
      | [] => hunks
      | next :: rest2 =>
        if (pys "+++ b/").isPrefixOf next then
          let f := root.joinStr (next.drop 6)
          undoParseLoop root fuel rest2 (some f) (alistSet hunks f [])
        else undoParseLoop root fuel rest2 cur hunks
    else
      match cur with
      | some f =>
        if (pys "@@").isPrefixOf line then
          let parts := splitWS line
          if 3 ≤ parts.length then
            let new_info := parts.getD 2 []
            let new_start := parseNat (((splitOnChar ',' new_info).headD []).drop 1)
            undoParseLoop root fuel (collectHunkBody rest [] []).1 cur
              (alistSet hunks f (((alistGet hunks f).getD []) ++
                [(new_start, (collectHunkBody rest [] []).2.1,
                  (collectHunkBody rest [] []).2.2)]))
          else undoParseLoop root fuel rest cur hunks
        else undoParseLoop root fuel rest cur hunks
      | none => undoParseLoop root fuel rest cur hunks

/-- Modelled from the spec: one reverse hunk restores the old lines over
the new-side slice. -/
def applyOneReverseHunk (ls : List PyStr) (h : Hunk) : List PyStr :=
  let (start, old_lines, new_lines) := h
  let start_idx := start - 1
  ls.take start_idx ++ old_lines ++ ls.drop (start_idx + new_lines.length)

/-- Modelled from the spec: reverse-apply a saved patch to the modelled
contents (files the patch references but that do not exist are skipped,
like the forward built-in applier). -/
def undo_apply (patch_content : PyStr) (root : PyPath)
    (contents : List (PyPath × PyStr)) : List (PyPath × PyStr) :=
  let plines := splitlinesNE patch_content
  let hunks := undoParseLoop root (plines.length + 1) plines none []
  hunks.foldl
    (fun cs pr =>
      match alistGet cs pr.1 with
      | none => cs
      | some content =>
        let file_lines := splitlinesNE content
        let final := pr.2.reverse.foldl applyOneReverseHunk file_lines
        alistSet cs pr.1 (List.intercalate ['\n'] final ++ ['\n']))
    contents

/-! ### The path resolvers (`src/checks/core/resolver.py`,
`src/checks/resolvers/default.py`, `src/checks/resolvers/hexo.py`) -/

/-- `PathResolver.is_external` (inherited unchanged by both resolvers). -/
def is_external (path : PyStr) : Bool :=
  (pys "http://").isPrefixOf path || (pys "https://").isPrefixOf path ||
  (pys "//").isPrefixOf path

/-- Python `str.strip()` (the whitespace characters relevant here). -/
def pyStrip (s : PyStr) : PyStr :=
  ((s.dropWhile pyIsSpace).reverse.dropWhile pyIsSpace).reverse

/-- `DefaultResolver.resolve`: `None` for external references, a
root-joined path for leading-slash references, otherwise relative to the
source file's directory. -/
def DefaultResolver.resolve (path : PyStr) (source_file root : PyPath) :
    Option PyPath :=
  if is_external path then none
  else
    let path := pyStrip path
    if path.head? = some '/' then some (root.joinStr (path.drop 1))
    else some (source_file.parent.joinStr path)

/-- `DefaultResolver.exists`: external references are assumed to exist;
otherwise resolve and probe the filesystem. -/
def DefaultResolver.existsRef (fs : FS) (path : PyStr) (source_file root : PyPath) :
    Bool :=
  if is_external path then true
  else
    match DefaultResolver.resolve path source_file root with
    | none => false
    | some r => fs.existsPath r

/-- `PathResolver.find_similar` (the generic suggestion algorithm),
parameterised by the resolver's own `resolve`. -/
def PathResolver.find_similar
    (resolveFn : PyStr → PyPath → PyPath → Option PyPath)
    (fs : FS) (path : PyStr) (source_file root : PyPath) (threshold : ℚ) :
    List PyStr :=
  match resolveFn path source_file root with
  | none => []
  | some resolved =>
    let target_dir := resolved.parent
    let target_dir :=
      if ¬ fs.existsPath target_dir then
        let parent := target_dir.parent
        if fs.existsPath parent then
          match get_close_matches target_dir.name (fs.dirNamesIn parent) 1 threshold with
          | [] => target_dir
          | d :: _ => parent.joinStr d
        else target_dir
      else target_dir
    if ¬ fs.existsPath target_dir then []
    else
      let target_name := resolved.name
      let candidates := fs.fileNamesIn target_dir
      let similar_files := get_close_matches target_name candidates 3 threshold
      similar_files.map (fun similar =>
        let similar_path := target_dir.joinStr similar
        match similar_path.relTo source_file.parent with
        | some rel => rel.as_posix
        | none => similar_path.as_posix)

/-- `HexoResolver` configuration. -/
structure HexoResolver where
  post_dir : List PyStr := [pys "_posts"]
  asset_folder_per_post : Bool := true
  pages : List PyStr := []
  deriving Repr

/-- Hex digit value. -/
def hexVal (c : Char) : Nat :=
  if c.isDigit then c.toNat - 48 else c.toLower.toNat - 87

/-- Hex digit test. -/
def isHexDigitChar (c : Char) : Bool :=
  c.isDigit || ('a' ≤ c.toLower && c.toLower ≤ 'f')

/-- `urllib.parse.unquote` restricted to single-byte `%XX` escapes (the
multi-byte UTF-8 case never arises in the verified scenarios). -/
def pyUnquote : PyStr → PyStr
  | [] => []
  | '%' :: a :: b :: rest =>
    if isHexDigitChar a ∧ isHexDigitChar b then
      Char.ofNat (hexVal a * 16 + hexVal b) :: pyUnquote rest
    else '%' :: pyUnquote (a :: b :: rest)
  | c :: rest => c :: pyUnquote rest

/-- `HexoResolver._normalize_path`: URL-decode, then strip a leading
`./`. -/
def HexoResolver.normalize_path (path : PyStr) : PyStr :=
  let path := pyUnquote path
  if (pys "./").isPrefixOf path then path.drop 2 else path

/-- `HexoResolver._is_post_file`: the file's root-relative first segment
is one of the configured post directories. -/
def HexoResolver.is_post_file (h : HexoResolver) (file root : PyPath) : Bool :=
  match file.relTo root with
  | none => false
  | some rel =>
    match rel.parts.head? with
    | some first => h.post_dir.contains first
    | none => false

/-- The post's asset folder: a sibling directory named after the stem. -/
def assetFolderOf (source_file : PyPath) : PyPath :=
  source_file.parent.joinStr source_file.stem

/-- `HexoResolver.resolve`. -/
def HexoResolver.resolve (h : HexoResolver) (fs : FS) (path : PyStr)
    (source_file root : PyPath) : Option PyPath :=
  if is_external path then none
  else
    let path := HexoResolver.normalize_path (pyStrip path)
    if path.head? = some '/' then some (root.joinStr (path.drop 1))
    else
      if h.is_post_file source_file root ∧ h.asset_folder_per_post then
        let asset_path := (assetFolderOf source_file).joinStr path
        if fs.existsPath asset_path then some asset_path
        else some (source_file.parent.joinStr path)
      else some (source_file.parent.joinStr path)

/-- `HexoResolver.exists`. -/
def HexoResolver.existsRef (h : HexoResolver) (fs : FS) (path : PyStr)
    (source_file root : PyPath) : Bool :=
  if is_external path then true
  else
    match h.resolve fs path source_file root with
    | none => false
    | some r => fs.existsPath r

/-- `pathlib`-style `parts` of a path object: an absolute path's first
part is the `/` anchor. -/
def pyPartsOf (p : PyPath) : List PyStr :=
  (if p.absolute then [pys "/"] else []) ++ p.parts

/-- `base / Path(*parts)`: joining a parts tuple whose head is the `/`
anchor yields an absolute path, as in pathlib. -/
def joinPyParts (base : PyPath) (parts : List PyStr) : PyPath :=
  if parts.head? = some (pys "/") then ⟨true, parts.tail⟩
  else ⟨base.absolute, base.parts ++ parts⟩

/-- The suggestion string `_find_similar_in_dir` builds for one matched
file: relative to the post's asset folder when the match lives there,
else relative to the source document's directory, else root-relative with
a `/` prefix, else the absolute path. -/
def hexoSuggestionOf (h : HexoResolver) (source_file root : PyPath)
    (similar_path : PyPath) : PyStr :=
  match (if h.is_post_file source_file root ∧ h.asset_folder_per_post then
      similar_path.relTo (assetFolderOf source_file)
    else none) with
  | some rel => rel.as_posix
  | none =>
    match similar_path.relTo source_file.parent with
    | some rel => rel.as_posix
    | none =>
      match similar_path.relTo root with
      | some rel => pys "/" ++ rel.as_posix
      | none => similar_path.as_posix

/-- The search-directory adjustment shared by `_find_similar_in_dir`:
replace a missing directory by its closest-named sibling when possible. -/
def searchDirAdjust (fs : FS) (search_dir0 : PyPath)
    (target_dir_parts : List PyStr) (threshold : ℚ) : PyPath :=
  if ¬ fs.existsPath search_dir0 then
    let parent := search_dir0.parent
    if fs.existsPath parent ∧ target_dir_parts ≠ [] then
      match get_close_matches search_dir0.name (fs.dirNamesIn parent) 1 threshold with
      | [] => search_dir0
      | d :: _ => parent.joinStr d
    else search_dir0
  else search_dir0

/-- The files `_find_similar_in_dir` actually matches: the close-match
candidates of the (possibly adjusted, still existing) search directory,
joined back onto it. -/
def hexoMatchedPaths (fs : FS) (search_dir0 : PyPath) (target_name : PyStr)
    (target_dir_parts : List PyStr) (threshold : ℚ) : List PyPath :=
  let search_dir := searchDirAdjust fs search_dir0 target_dir_parts threshold
  if ¬ fs.existsPath search_dir then []
  else
    (get_close_matches target_name (fs.fileNamesIn search_dir) 3 threshold).map
      (fun similar => search_dir.joinStr similar)

/-- `HexoResolver._find_similar_in_dir`. -/
def HexoResolver.find_similar_in_dir (h : HexoResolver) (fs : FS)
    (search_dir0 : PyPath) (target_name : PyStr)
    (target_dir_parts : List PyStr) (source_file root : PyPath)
    (threshold : ℚ) : List PyStr :=
  let search_dir := searchDirAdjust fs search_dir0 target_dir_parts threshold
  if ¬ fs.existsPath search_dir then []
  else
    let candidates := fs.fileNamesIn search_dir
    let similar_files := get_close_matches target_name candidates 3 threshold
    similar_files.map (fun similar =>
      hexoSuggestionOf h source_file root (search_dir.joinStr similar))

/-- The `target_dir_parts` value `HexoResolver.find_similar` computes from
the reference string. -/
def hexoTargetDirParts (path : PyStr) : List PyStr :=
  let pyParts := pyPartsOf (PyPath.ofStr path)
  if 1 < pyParts.length then pyParts.dropLast else []

/-- The directories `HexoResolver.find_similar` searches: the reference's
directory under the source document's directory and, for posts with
per-post asset folders, under the asset folder. -/
def hexoSearchDirs (h : HexoResolver) (path : PyStr)
    (source_file root : PyPath) : List PyPath :=
  let target_dir_parts := hexoTargetDirParts path
  let base_dir := source_file.parent
  [(if target_dir_parts ≠ [] then joinPyParts base_dir target_dir_parts
    else base_dir)] ++
  (if h.is_post_file source_file root ∧ h.asset_folder_per_post then
    let asset_folder := assetFolderOf source_file
    [(if target_dir_parts ≠ [] then joinPyParts asset_folder target_dir_parts
      else asset_folder)]
  else [])

/-- The `seen`/`unique_results` loop closing `find_similar`:
de-duplication preserving first occurrence. -/
def dedupKeepFirst (l : List PyStr) : List PyStr :=
  l.foldl (fun acc r => if acc.contains r then acc else acc ++ [r]) []

/-- `HexoResolver.find_similar`: search the reference's directory under
the source document's directory and, for posts, under the asset folder;
concatenate and de-duplicate preserving first-seen order. -/
def HexoResolver.find_similar (h : HexoResolver) (fs : FS) (path : PyStr)
    (source_file root : PyPath) (threshold : ℚ) : List PyStr :=
  let target_name := (PyPath.ofStr path).name
  let target_dir_parts := hexoTargetDirParts path
  dedupKeepFirst ((hexoSearchDirs h path source_file root).flatMap (fun sd =>
    h.find_similar_in_dir fs sd target_name target_dir_parts source_file root
      threshold))

/-! ### A small backtracking regex interpreter, and the image checker
(`src/checks/checkers/image.py`).  The checker's patterns are written as
terms of the `RE` type mirroring the `ImagePatterns` regular expressions
construct by construct; the interpreter implements Python `re`'s ordered
(leftmost, greedy/lazy with backtracking) matching. -/

/-- The backtick character (U+0060). -/
def backtick : Char := Char.ofNat 96

/-- Regex abstract syntax: character predicate, concatenation, ordered
alternation, greedy star, lazy star, numbered capture group. -/
inductive RE where
  | eps
  | ch (p : Char → Bool)
  | cat (a b : RE)
  | alt (a b : RE)
  | star (a : RE)
  | starL (a : RE)
  | grp (n : Nat) (a : RE)

/-- Captured spans: group id, start, end (most recent first). -/
abbrev Caps := List (Nat × Nat × Nat)

/-- One level of the CPS backtracking matcher, structural in the regex:
`self` re-enters a star at the next-lower fuel level.  A star iteration
must consume input (Python's empty-repeat rule), so each re-entry sits
behind at least one consumed character. -/
def reMStep
    (self : RE → List Char → Nat → Caps →
      (Nat → Caps → Option (Nat × Caps)) → Option (Nat × Caps)) :
    RE → (s : List Char) → Nat → Caps →
    (Nat → Caps → Option (Nat × Caps)) → Option (Nat × Caps)
  | .eps, _, i, caps, k => k i caps
  | .ch p, s, i, caps, k =>
    match s[i]? with
    | some c => if p c then k (i + 1) caps else none
    | none => none
  | .cat a b, s, i, caps, k =>
    reMStep self a s i caps (fun j cs => reMStep self b s j cs k)
  | .alt a b, s, i, caps, k =>
    match reMStep self a s i caps k with
    | some r => some r
    | none => reMStep self b s i caps k
  | .grp n a, s, i, caps, k =>
    reMStep self a s i caps (fun j cs => k j ((n, i, j) :: cs))
  | .star a, s, i, caps, k =>
    match reMStep self a s i caps
        (fun j cs => if i < j then self (.star a) s j cs k else none) with
    | some r => some r
    | none => k i caps
  | .starL a, s, i, caps, k =>
    match k i caps with
    | some r => some r
    | none =>
      reMStep self a s i caps
        (fun j cs => if i < j then self (.starL a) s j cs k else none)

/-- The CPS backtracking matcher: tries every way the regex can match at
position `i`, in Python's preference order, calling `k` on each
candidate continuation position until one succeeds.  Fuel only bounds
star re-entries, each of which consumes at least one character, so
`s.length + 1` fuel is always enough. -/
def reM : Nat → RE → (s : List Char) → Nat → Caps →
    (Nat → Caps → Option (Nat × Caps)) → Option (Nat × Caps)
  | 0 => reMStep (fun _ _ _ _ _ => none)
  | fuel + 1 => reMStep (reM fuel)

/-- `r?` (greedy option). -/
def RE.opt (a : RE) : RE := .alt a .eps

/-- `r+` (greedy plus). -/
def RE.plus (a : RE) : RE := .cat a (.star a)

/-- A literal character. -/
def chEq (c : Char) : RE := .ch (fun x => x = c)

/-- A case-insensitive literal character (`re.IGNORECASE`). -/
def chCI (c : Char) : RE := .ch (fun x => x.toLower = c.toLower)

/-- A literal string. -/
def reStr (s : PyStr) : RE := s.foldr (fun c r => .cat (chEq c) r) .eps

/-- A case-insensitive literal string. -/
def reStrCI (s : PyStr) : RE := s.foldr (fun c r => .cat (chCI c) r) .eps

/-- `\s` (the ASCII whitespace class; the verified inputs are ASCII). -/
def reSpace : RE := .ch pyIsSpace

/-- A quote character, `["']`. -/
def reQuote : RE := .ch (fun c => c = '"' ∨ c = '\'')

/-- Anchored match at position 0 (`pattern.match(line)`). -/
def reMatchAt0 (r : RE) (s : List Char) : Bool :=
  (reM (s.length + 1) r s 0 [] (fun j cs => some (j, cs))).isSome

/-- `pattern.finditer(s)`: all non-overlapping matches scanning left to
right, each as (start, end, captures). -/
def reFindIter (r : RE) (s : List Char) : List (Nat × Nat × Caps) :=
  go (s.length + 2) 0 where
  go : Nat → Nat → List (Nat × Nat × Caps)
  | 0, _ => []
  | fuel + 1, i =>
    if s.length < i then []
    else
      match reM (s.length + 1) r s i [] (fun j cs => some (j, cs)) with
      | some (j, cs) =>
        (i, j, cs) :: (if i < j then go fuel j else go fuel (j + 1))
      | none => go fuel (i + 1)

/-- The last captured span of group `n` (`match.group(name)`). -/
def capGroup (caps : Caps) (n : Nat) : Option (Nat × Nat) :=
  (caps.find? (fun t => t.1 = n)).map (fun t => t.2)

/-- The substring `s[i:j]`. -/
def subStr (s : PyStr) (i j : Nat) : PyStr := (s.drop i).take (j - i)

/-- `pattern.sub("", s)`: delete every match span. -/
def reSubEmpty (r : RE) (s : PyStr) : PyStr :=
  let spans := (reFindIter r s).map (fun m => (m.1, m.2.1))
  ((s.enum).filter (fun p =>
    ¬ spans.any (fun sp => sp.1 ≤ p.1 ∧ p.1 < sp.2))).map (fun p => p.2)

/-- `ImagePatterns.MARKDOWN_IMAGE`: group 1 is `path_angle`, group 2 is
`path_normal`; the alt text allows one level of nested brackets, the
plain path one level of nested parentheses, and an optional quoted title
is ignored. -/
def MARKDOWN_IMAGE : RE :=
  .cat (chEq '!') (.cat (chEq '[')
    (.cat (.star (.alt (.ch (fun c => c ≠ '[' ∧ c ≠ ']'))
      (.cat (chEq '[') (.cat (.star (.ch (fun c => c ≠ ']'))) (chEq ']')))))
    (.cat (chEq ']') (.cat (chEq '(')
    (.cat (.alt
      (.cat (chEq '<') (.cat (.grp 1 (RE.plus (.ch (fun c => c ≠ '>')))) (chEq '>')))
      (.grp 2 (RE.plus (.alt
        (.ch (fun c => ¬ (c = '(' ∨ c = ')' ∨ pyIsSpace c ∨ c = '"')))
        (.cat (chEq '(') (.cat (.star (.ch (fun c => c ≠ '(' ∧ c ≠ ')')))
          (chEq ')')))))))
    (.cat (RE.opt (.cat (RE.plus reSpace)
      (.cat reQuote (.cat (.star (.ch (fun c => ¬ (c = '"' ∨ c = '\'')))) reQuote))))
    (chEq ')')))))))

/-- `ImagePatterns.HTML_IMG` (`re.IGNORECASE`): group 1 is `path`. -/
def HTML_IMG : RE :=
  .cat (chEq '<') (.cat (reStrCI (pys "img")) (.cat (RE.plus reSpace)
    (.cat (RE.opt (.cat (.starL (.ch (fun c => c ≠ '>'))) (RE.plus reSpace)))
    (.cat (reStrCI (pys "src")) (.cat (chEq '=') (.cat reQuote
    (.cat (.grp 1 (RE.plus (.ch (fun c => ¬ (c = '"' ∨ c = '\'')))))
    (.cat reQuote (.cat (.star (.ch (fun c => c ≠ '>')))
    (.cat (RE.opt (chEq '/')) (chEq '>')))))))))))

/-- `ImagePatterns.HTML_VIDEO_POSTER` (`re.IGNORECASE`): group 1 is
`path`. -/
def HTML_VIDEO_POSTER : RE :=
  .cat (chEq '<') (.cat (reStrCI (pys "video")) (.cat (RE.plus reSpace)
    (.cat (RE.opt (.cat (.starL (.ch (fun c => c ≠ '>'))) (RE.plus reSpace)))
    (.cat (reStrCI (pys "poster")) (.cat (chEq '=') (.cat reQuote
    (.cat (.grp 1 (RE.plus (.ch (fun c => ¬ (c = '"' ∨ c = '\'')))))
    (.cat reQuote (.cat (.star (.ch (fun c => c ≠ '>')))
    (chEq '>'))))))))))

/-- `ImagePatterns.CODE_FENCE` (`^\s*` + three backticks), as used via
`.match`. -/
def CODE_FENCE_match (line : PyStr) : Bool :=
  reMatchAt0 (.cat (.star reSpace) (reStr [backtick, backtick, backtick])) line

/-- `ImagePatterns.INLINE_CODE`: a backtick, one or more non-backticks, a
backtick. -/
def INLINE_CODE : RE :=
  .cat (chEq backtick) (.cat (RE.plus (.ch (fun c => c ≠ backtick))) (chEq backtick))

/-- `ImagePatterns.PATH_SUFFIX` (`#[\w-]+$`) character class. -/
def isWordDash (c : Char) : Bool := c.isAlphanum || c = '_' || c = '-'

/-- `ImageChecker._clean_path`: strip, then delete a trailing
`#fragment`. -/
def clean_path (path : PyStr) : PyStr :=
  let path := pyStrip path
  match (List.range path.length).find? (fun i =>
      path.getD i ' ' = '#' ∧ path.drop (i + 1) ≠ [] ∧
      (path.drop (i + 1)).all isWordDash) with
  | some i => path.take i
  | none => path

/-- `ImageChecker` configuration. -/
structure ImageChecker where
  ignore_external : Bool := true
  fuzzy_threshold : ℚ := Rat.divInt 3 5
  skip_code_blocks : Bool := true
  skip_inline_code : Bool := true
  check_html_img : Bool := true
  check_video_poster : Bool := true
  deriving Repr

/-- The resolver interface consumed by the checker (`ctx.resolver`). -/
structure ResolverI where
  resolve : FS → PyStr → PyPath → PyPath → Option PyPath
  existsRef : FS → PyStr → PyPath → PyPath → Bool
  find_similar : FS → PyStr → PyPath → PyPath → ℚ → List PyStr

/-- `DefaultResolver` as a resolver instance. -/
def defaultResolverI : ResolverI :=
  ⟨fun _ p sf rt => DefaultResolver.resolve p sf rt,
   DefaultResolver.existsRef,
   PathResolver.find_similar DefaultResolver.resolve⟩

/-- `HexoResolver` as a resolver instance. -/
def hexoResolverI (h : HexoResolver) : ResolverI :=
  ⟨h.resolve, h.existsRef, h.find_similar⟩

/-- `ImageChecker._check_path`: clean the path, pass external references,
pass existing references, otherwise build a `broken_image` issue with
the first fuzzy suggestion. -/
def ImageChecker.check_path (c : ImageChecker) (res : ResolverI) (fs : FS)
    (root file : PyPath) (path : PyStr) (line : Nat) (column : Nat)
    (line_content : PyStr) : Option Issue :=
  let clean := clean_path path
  if c.ignore_external ∧ is_external clean then none
  else if res.existsRef fs clean file root then none
  else
    let suggestion :=
      match res.find_similar fs clean file root c.fuzzy_threshold with
      | [] => none
      | s :: _ => some s
    some
      { file := file, line := (line : Int), column := some column,
        itype := pys "broken_image",
        message := pys "Image not found: " ++ [backtick] ++ clean ++ [backtick],
        original := path, suggestion := suggestion, severity := .error,
        checker := pys "image",
        metadata := [(pys "clean_path", clean), (pys "line_content", line_content)] }

/-- `ImageChecker._check_markdown_images`: every match contributes the
angle-bracket group if captured, else the plain group; the reported
column is the path's first index in the original line, falling back to
the match start. -/
def ImageChecker.check_markdown_images (c : ImageChecker) (res : ResolverI)
    (fs : FS) (root file : PyPath) (check_line original_line : PyStr)
    (line_num : Nat) : List Issue :=
  (reFindIter MARKDOWN_IMAGE check_line).filterMap (fun m =>
    let path :=
      match capGroup m.2.2 1 with
      | some sp => subStr check_line sp.1 sp.2
      | none =>
        match capGroup m.2.2 2 with
        | some sp => subStr check_line sp.1 sp.2
        | none => []
    if path = [] then none
    else
      let column := (findSub original_line path).getD m.1
      c.check_path res fs root file path line_num column original_line)

/-- `ImageChecker._check_pattern_matches` for the HTML patterns: the
`path` group with the same column fallback (here to the group start). -/
def ImageChecker.check_pattern_matches (c : ImageChecker) (res : ResolverI)
    (fs : FS) (root file : PyPath) (pat : RE)
    (check_line original_line : PyStr) (line_num : Nat) : List Issue :=
  (reFindIter pat check_line).filterMap (fun m =>
    match capGroup m.2.2 1 with
    | none => none
    | some sp =>
      let path := subStr check_line sp.1 sp.2
      let column := (findSub original_line path).getD sp.1
      c.check_path res fs root file path line_num column original_line)

/-- The issues one processed line contributes in `ImageChecker.check`. -/
def ImageChecker.checkLineIssues (c : ImageChecker) (res : ResolverI)
    (fs : FS) (root file : PyPath) (line : PyStr) (line_num : Nat) :
    List Issue :=
  let check_line := if c.skip_inline_code then reSubEmpty INLINE_CODE line else line
  c.check_markdown_images res fs root file check_line line line_num ++
  (if c.check_html_img then
    c.check_pattern_matches res fs root file HTML_IMG check_line line line_num
  else []) ++
  (if c.check_video_poster then
    c.check_pattern_matches res fs root file HTML_VIDEO_POSTER check_line line line_num
  else [])

/-- The per-line loop of `ImageChecker.check`: fence lines toggle the
code-block flag and contribute nothing; lines inside a code block are
skipped; other lines are processed. -/
def ImageChecker.checkLoop (c : ImageChecker) (res : ResolverI) (fs : FS)
    (root file : PyPath) : List PyStr → Nat → Bool → List Issue
  | [], _, _ => []
  | line :: rest, line_num, in_code =>
    if c.skip_code_blocks ∧ CODE_FENCE_match line then
      ImageChecker.checkLoop c res fs root file rest (line_num + 1) (!in_code)
    else if in_code then
      ImageChecker.checkLoop c res fs root file rest (line_num + 1) in_code
    else
      c.checkLineIssues res fs root file line line_num ++
      ImageChecker.checkLoop c res fs root file rest (line_num + 1) in_code

/-- `ImageChecker.check`. -/
def ImageChecker.check (c : ImageChecker) (res : ResolverI) (fs : FS)
    (root file : PyPath) (content : PyStr) : List Issue :=
  ImageChecker.checkLoop c res fs root file (splitlinesNE content) 1 false

/-! ### Concrete fixtures used by the claim theorems -/

/-- A project root used by the concrete scenarios. -/
def rootT : PyPath := ⟨true, [pys "root"]⟩

/-- A document path under the project root. -/
def fileT : PyPath := ⟨true, [pys "root", pys "t.md"]⟩

/-- A fixable issue on line 2 replacing `fix me` with `fixed`. -/
def issueFix2 : Issue :=
  { file := fileT, line := 2, itype := pys "test", message := pys "m",
    original := pys "fix me", checker := pys "test",
    suggestion := some (pys "fixed") }

/-- The spec's two-issue example: line 2, `fix me` to `fixed 1`. -/
def issueFixA : Issue :=
  { file := fileT, line := 2, itype := pys "test", message := pys "m",
    original := pys "fix me", checker := pys "test",
    suggestion := some (pys "fixed 1") }

/-- The spec's two-issue example: line 4, `also fix` to `fixed 2`. -/
def issueAlso4 : Issue :=
  { file := fileT, line := 4, itype := pys "test", message := pys "m",
    original := pys "also fix", checker := pys "test",
    suggestion := some (pys "fixed 2") }

/-- An issue whose line number (5) exceeds its file's line count. -/
def issueLine5 : Issue :=
  { file := fileT, line := 5, itype := pys "test", message := pys "m",
    original := pys "x", checker := pys "test",
    suggestion := some (pys "b") }

/-- A column-span issue on line 1 whose original is longer than the rest
of the line, so its splice consumes the trailing newline. -/
def issueSpan : Issue :=
  { file := fileT, line := 1, itype := pys "test", message := pys "m",
    original := pys "xx", checker := pys "test", column := some 0,
    suggestion := some [] }

/-- The original content of the round-trip scenarios, without a trailing
newline. -/
def origNoNL : PyStr := pys "line 1\nfix me"

/-- The same content with a trailing newline. -/
def origNL : PyStr := pys "line 1\nfix me\n"

/-- The modelled on-disk contents for the two scenarios. -/
def contentsNoNL : List (PyPath × PyStr) := [(fileT, origNoNL)]

/-- The modelled on-disk contents, trailing-newline variant. -/
def contentsNL : List (PyPath × PyStr) := [(fileT, origNL)]

/-- Modelled from the spec: the stated preference order for the form of a
suggestion string — relative to the post's asset folder when the match
lives there, else relative to the source document's directory, else
root-relative prefixed with a slash, else absolute as last resort. -/
def specSuggestionForm (source_file root : PyPath)
    (asset_folder : Option PyPath) (p : PyPath) : PyStr :=
  match (match asset_folder with
    | some af => p.relTo af
    | none => none) with
  | some rel => rel.as_posix
  | none =>
    match p.relTo source_file.parent with
    | some rel => rel.as_posix
    | none =>
      match p.relTo root with
      | some rel => pys "/" ++ rel.as_posix
      | none => p.as_posix

/-- A source document `/root/posts/doc.md` used by the suggestion
scenarios. -/
def srcC8 : PyPath := ⟨true, [pys "root", pys "posts", pys "doc.md"]⟩

/-- A project tree with an assets directory beside the posts directory
and an images directory inside it. -/
def fsC8 : FS := ⟨[
  ⟨⟨true, [pys "root"]⟩, false⟩,
  ⟨⟨true, [pys "root", pys "posts"]⟩, false⟩,
  ⟨⟨true, [pys "root", pys "posts", pys "doc.md"]⟩, true⟩,
  ⟨⟨true, [pys "root", pys "posts", pys "imgs"]⟩, false⟩,
  ⟨⟨true, [pys "root", pys "posts", pys "imgs", pys "img.png"]⟩, true⟩,
  ⟨⟨true, [pys "root", pys "assets"]⟩, false⟩,
  ⟨⟨true, [pys "root", pys "assets", pys "img.png"]⟩, true⟩]⟩

/-- A Hexo configuration whose posts live under `posts`. -/
def hexoPostCfg : HexoResolver := { post_dir := [pys "posts"] }

/-- The same tree with the post's asset folder `doc` and an image inside
it. -/
def fsC8p : FS := ⟨fsC8.entries ++ [
  ⟨⟨true, [pys "root", pys "posts", pys "doc"]⟩, false⟩,
  ⟨⟨true, [pys "root", pys "posts", pys "doc", pys "img.png"]⟩, true⟩]⟩

/-- A code-fence marker line. -/
def fenceLine : PyStr := [backtick, backtick, backtick]

/-- A line with a broken markdown image reference. -/
def lineImg : PyStr := pys "![x](miss.png)"

/-- The same broken reference wrapped in an inline-code span. -/
def lineBt : PyStr :=
  pys "text " ++ [backtick] ++ pys "![x](miss.png)" ++ [backtick] ++ pys " tail"

/-- A document carrying the broken reference inside a fenced block
(line 3), inside an inline-code span (line 5) and in plain text
(line 6). -/
def docC7 : PyStr :=
  pys "start\n" ++ fenceLine ++ pys "\n" ++ lineImg ++ pys "\n" ++
  fenceLine ++ pys "\n" ++ lineBt ++ pys "\n" ++ lineImg ++ pys "\nend\n"

/-- The single issue the checker reports on that document. -/
def issueC7 : Issue :=
  { file := fileT, line := 6, itype := pys "broken_image",
    message := pys "Image not found: " ++ [backtick] ++ pys "miss.png" ++
      [backtick],
    original := pys "miss.png", checker := pys "image", column := some 5,
    suggestion := none, severity := .error,
    metadata := [(pys "clean_path", pys "miss.png"),
                 (pys "line_content", lineImg)] }

/-! ### Supporting lemmas about `splitlines` and the newline
normalisation -/

/-- Splitting with keepends is a partition: flattening restores the
string. -/
theorem flatten_splitlinesKE (s : PyStr) : (splitlinesKE s).flatten = s := by
  induction s using splitlinesKE.induct with
  | case1 => rfl
  | case2 => rfl
  | case3 rest2 ih => simp [splitlinesKE, ih]
  | case4 d rest2 hd ih =>
    rw [splitlinesKE.eq_def]
    simp [hd]
    simpa using ih
  | case5 c rest hc hb ih =>
    rw [splitlinesKE.eq_def]
    simp [hc, hb, ih]
  | case6 c rest hc hb hm ih =>
    have hrest : rest = [] := by rw [hm] at ih; simpa using ih.symm
    subst hrest
    rw [splitlinesKE.eq_def]
    simp [hc, hb, hm]
  | case7 c rest hc hb l ls hm ih =>
    rw [hm] at ih
    simp only [List.flatten_cons] at ih
    rw [splitlinesKE.eq_def]
    simp only [hm]
    rw [if_neg hc, if_neg hb]
    simpa using ih

/-- Every produced line is non-empty. -/
theorem splitlinesKE_ne_nil (s : PyStr) : ∀ l ∈ splitlinesKE s, l ≠ [] := by
  induction s using splitlinesKE.induct with
  | case1 => simp [splitlinesKE]
  | case2 => simp [splitlinesKE]
  | case3 rest2 ih =>
    intro l hl
    rw [splitlinesKE.eq_def] at hl
    simp at hl
    rcases hl with h | h
    · simp [h]
    · exact ih l h
  | case4 d rest2 hd ih =>
    intro l hl
    rw [splitlinesKE.eq_def] at hl
    simp [hd] at hl
    rcases hl with h | h
    · simp [h]
    · exact ih l h
  | case5 c rest hc hb ih =>
    intro l hl
    rw [splitlinesKE.eq_def] at hl
    simp [hc, hb] at hl
    rcases hl with h | h
    · simp [h]
    · exact ih l h
  | case6 c rest hc hb hm ih =>
    intro l hl
    rw [splitlinesKE.eq_def] at hl
    simp [hc, hb, hm] at hl
    simp [hl]
  | case7 c rest hc hb l0 ls hm ih =>
    intro l hl
    rw [splitlinesKE.eq_def] at hl
    simp [hc, hb, hm] at hl
    rcases hl with h | h
    · simp [h]
    · exact ih l (by simp [hm, h])

/-- A non-empty string splits into a non-empty line list. -/
theorem splitlinesKE_ne_nil_of_ne_nil (s : PyStr) (hs : s ≠ []) :
    splitlinesKE s ≠ [] := by
  intro h
  apply hs
  have := flatten_splitlinesKE s
  rw [h] at this
  simpa using this.symm

/-- Flattening a list whose last element is non-empty ends as that last
element ends. -/
theorem flatten_getLast? {α : Type} (ls : List (List α)) (l : List α)
    (hl : ls.getLast? = some l) (hne : l ≠ []) :
    ls.flatten.getLast? = l.getLast? := by
  induction ls with
  | nil => simp at hl
  | cons x xs ih =>
    cases xs with
    | nil =>
      obtain rfl : x = l := by simpa using hl
      simp
    | cons y ys =>
      have h2 : (y :: ys).getLast? = some l := by
        rwa [List.getLast?_cons_cons] at hl
      have hB := ih h2
      have hBne : (y :: ys).flatten ≠ [] := by
        intro h0
        rw [h0] at hB
        exact hne (List.getLast?_eq_none_iff.mp hB.symm)
      rw [List.flatten_cons, List.getLast?_append_of_ne_nil x hBne]
      exact hB

/-- The last split line ends exactly as the string ends. -/
theorem splitlinesKE_last_char (s : PyStr) (l : PyStr)
    (hl : (splitlinesKE s).getLast? = some l) : l.getLast? = s.getLast? := by
  have hmem := List.mem_of_getLast?_eq_some hl
  have hlne := splitlinesKE_ne_nil s l hmem
  have h2 := flatten_getLast? (splitlinesKE s) l hl hlne
  rw [flatten_splitlinesKE] at h2
  exact h2.symm

/-- Normalisation is the identity when the last line already ends with a
newline. -/
theorem ensure_last_newline_eq_self (ls : List PyStr) (l : PyStr)
    (hl : ls.getLast? = some l) (h : l.getLast? = some '\n') :
    ensure_last_newline ls = ls := by
  unfold ensure_last_newline
  rw [hl]
  simp [h]

/-- Normalisation otherwise appends a newline to the last line. -/
theorem ensure_last_newline_append (ls : List PyStr) (l : PyStr)
    (hl : ls.getLast? = some l) (h : ¬ l.getLast? = some '\n') :
    ensure_last_newline ls = ls.dropLast ++ [l ++ ['\n']] := by
  unfold ensure_last_newline
  rw [hl]
  simp [h]

/-- Normalisation preserves the number of lines. -/
theorem ensure_last_newline_length (ls : List PyStr) :
    (ensure_last_newline ls).length = ls.length := by
  cases hl : ls.getLast? with
  | none =>
    have h0 : ls = [] := List.getLast?_eq_none_iff.mp hl
    subst h0
    rfl
  | some l =>
    by_cases h : l.getLast? = some '\n'
    · rw [ensure_last_newline_eq_self ls l hl h]
    · rw [ensure_last_newline_append ls l hl h]
      have hne : ls ≠ [] := by
        intro h0
        rw [h0] at hl
        simp at hl
      have hpos : 0 < ls.length := List.length_pos.mpr hne
      simp only [List.length_append, List.length_dropLast, List.length_cons,
        List.length_nil]
      omega

/-- For a string ending in a newline, normalising its split lines and
flattening restores the string. -/
theorem ensure_flatten_self (s : PyStr) (h : s.getLast? = some '\n') :
    (ensure_last_newline (splitlinesKE s)).flatten = s := by
  have hne : s ≠ [] := by
    intro h0
    rw [h0] at h
    simp at h
  have hlsne := splitlinesKE_ne_nil_of_ne_nil s hne
  have hl := List.getLast?_eq_getLast _ hlsne
  have hlast := splitlinesKE_last_char s _ hl
  rw [ensure_last_newline_eq_self _ _ hl (by rw [hlast]; exact h)]
  exact flatten_splitlinesKE s

/-- For a non-empty string not ending in a newline, normalisation adds
exactly one final newline. -/
theorem ensure_flatten_append (s : PyStr) (hne : s ≠ [])
    (h : ¬ s.getLast? = some '\n') :
    (ensure_last_newline (splitlinesKE s)).flatten = s ++ ['\n'] := by
  have hlsne := splitlinesKE_ne_nil_of_ne_nil s hne
  have hl := List.getLast?_eq_getLast _ hlsne
  have hlast := splitlinesKE_last_char s _ hl
  rw [ensure_last_newline_append _ _ hl (by rw [hlast]; exact h)]
  rw [List.flatten_append]
  simp only [List.flatten_cons, List.flatten_nil, List.append_nil]
  have hsplit := List.dropLast_concat_getLast hlsne
  have hfl : (splitlinesKE s).dropLast.flatten ++ (splitlinesKE s).getLast hlsne
      = s := by
    calc (splitlinesKE s).dropLast.flatten ++ (splitlinesKE s).getLast hlsne
        = ((splitlinesKE s).dropLast ++ [(splitlinesKE s).getLast hlsne]).flatten := by
          rw [List.flatten_append]
          simp
      _ = (splitlinesKE s).flatten := by rw [hsplit]
      _ = s := flatten_splitlinesKE s
  rw [← List.append_assoc, hfl]

/-! ### Lemmas about the per-file fix loop -/

/-- Membership through the stable descending insert. -/
theorem mem_insertByLineDesc {x a : Issue} {l : List Issue} :
    x ∈ insertByLineDesc a l ↔ x = a ∨ x ∈ l := by
  induction l with
  | nil => simp [insertByLineDesc]
  | cons y ys ih =>
    unfold insertByLineDesc
    split
    · simp only [List.mem_cons, ih]
      tauto
    · simp [List.mem_cons]

/-- Sorting by descending line number preserves membership. -/
theorem mem_sortByLineDesc {x : Issue} {l : List Issue} :
    x ∈ sortByLineDesc l ↔ x ∈ l := by
  induction l with
  | nil => simp [sortByLineDesc]
  | cons y ys ih =>
    show x ∈ insertByLineDesc y (sortByLineDesc ys) ↔ _
    rw [mem_insertByLineDesc, ih]
    simp

/-- When every issue either has no fix or is out of range, the fold
leaves the lines untouched and only appends skip results. -/
theorem foldl_applyFixStep_all_skip (issues : List Issue) (lines : List PyStr)
    (res : List FixResult)
    (h : ∀ i ∈ issues, i.get_fix = none ∨
      ¬ (0 ≤ i.line - 1 ∧ i.line - 1 < (lines.length : Int))) :
    (issues.foldl applyFixStep (lines, res)).1 = lines ∧
    ∀ r ∈ (issues.foldl applyFixStep (lines, res)).2,
      r ∈ res ∨ r.action = .skip := by
  induction issues generalizing res with
  | nil => exact ⟨rfl, fun r hr => Or.inl hr⟩
  | cons i is ih =>
    have hstep : ∃ extra, applyFixStep (lines, res) i =
        (lines, res ++ [extra]) ∧ extra.action = .skip := by
      cases hgf : i.get_fix with
      | none =>
        refine ⟨⟨i, .skip, none, false, some (pys "No fix available")⟩, ?_, rfl⟩
        simp [applyFixStep, hgf]
      | some f =>
        rcases h i (by simp) with hf | hoor
        · rw [hgf] at hf
          cases hf
        · refine ⟨⟨i, .skip, none, false,
            some (pys "Line " ++ intStr i.line ++ pys " out of range")⟩, ?_, rfl⟩
          simp only [applyFixStep, hgf]
          rw [if_neg hoor]
    obtain ⟨extra, hstep, hsk⟩ := hstep
    rw [List.foldl_cons, hstep]
    have := ih (res ++ [extra]) (fun j hj => h j (by simp [hj]))
    refine ⟨this.1, fun r hr => ?_⟩
    rcases this.2 r hr with hin | hskr
    · rcases List.mem_append.mp hin with h1 | h2
      · exact Or.inl h1
      · right
        simp only [List.mem_singleton] at h2
        rw [h2]
        exact hsk
    · exact Or.inr hskr

/-! ### Claim C1 -/

/-- Claim C1: for every line and every `Fix` with a start column and no end
column, `apply_to_line` replaces exactly the span
`[start_col, start_col + length(original))`: the result is the prefix
before `start_col`, then the replacement, then the characters from
`start_col + length(original)` onward; in particular the prefix up to
`start_col` and the suffix are preserved verbatim, and on the concrete
line `![alt](old.png)` with the concrete fix the result is exactly
`![alt](new.png)` with a single occurrence of `![alt]`. -/
theorem C1_apply_to_line_span (line orig repl descr : PyStr) (l : Int) (c : Nat) :
    (Fix.apply_to_line ⟨orig, repl, l, some c, none, descr⟩ line =
      line.take c ++ repl ++ line.drop (c + orig.length)) ∧
    (c + orig.length ≤ line.length →
      ((Fix.apply_to_line ⟨orig, repl, l, some c, none, descr⟩ line).take c =
        line.take c ∧
       (Fix.apply_to_line ⟨orig, repl, l, some c, none, descr⟩ line).drop
          (c + repl.length) = line.drop (c + orig.length))) ∧
    (Fix.apply_to_line
        ⟨pys "![alt](old.png)", pys "![alt](new.png)", 1, some 0, none, []⟩
        (pys "![alt](old.png)") = pys "![alt](new.png)" ∧
     countOccur
        (Fix.apply_to_line
          ⟨pys "![alt](old.png)", pys "![alt](new.png)", 1, some 0, none, []⟩
          (pys "![alt](old.png)"))
        (pys "![alt]") = 1) := by
  have e1 : Fix.apply_to_line ⟨orig, repl, l, some c, none, descr⟩ line =
      line.take c ++ repl ++ line.drop (c + orig.length) := rfl
  refine ⟨rfl, ?_, by decide⟩
  intro h
  constructor
  · rw [e1, List.append_assoc,
      List.take_append_of_le_length (by simp only [List.length_take]; omega),
      List.take_take, min_self]
  · have hl : (line.take c ++ repl).length = c + repl.length := by
      simp only [List.length_append, List.length_take]
      omega
    rw [e1, ← hl, List.drop_left]

/-- Concrete witness for C1's bounded-span conjunct. -/
theorem C1_apply_to_line_span_witness :
    (Fix.apply_to_line
        ⟨pys "old", pys "new", 1, some 9, none, []⟩
        (pys "This has old text")).take 9 = (pys "This has old text").take 9 :=
  ((C1_apply_to_line_span (pys "This has old text") (pys "old") (pys "new")
    [] 1 9).2.1 (by decide)).1

/-- Unfolding `fix_file_lines`. -/
theorem fix_file_lines_def (content : PyStr) (issues : List Issue) :
    fix_file_lines content issues =
      (sortByLineDesc issues).foldl applyFixStep
        (ensure_last_newline (splitlinesKE content), []) := rfl

/-- Unfolding `fix_file_patch` into its diff option and results. -/
theorem fix_file_patch_def (content : PyStr) (issues : List Issue)
    (rel : PyStr) (n : Nat) :
    fix_file_patch content issues rel n =
      (if content = (fix_file_lines content issues).1.flatten then none
       else
         some (unified_diff (splitlinesKE content)
           (splitlinesKE ((fix_file_lines content issues).1.flatten))
           (pys "a/" ++ rel) (pys "b/" ++ rel) n),
       (fix_file_lines content issues).2) := by
  unfold fix_file_patch
  rcases hfl : fix_file_lines content issues with ⟨lines, results⟩
  simp only [hfl]
  split <;> rfl

/-- One fold step on an in-range issue with a fix applies it and records
an accept. -/
theorem applyFixStep_accept (L : List PyStr) (res : List FixResult)
    (a : Issue) (fa : Fix) (hfa : a.get_fix = some fa)
    (h0 : 0 ≤ a.line - 1) (h1 : a.line - 1 < (L.length : Int)) :
    applyFixStep (L, res) a =
      (L.set (a.line - 1).toNat (fa.apply_to_line (L.getD (a.line - 1).toNat [])),
       res ++ [⟨a, .accept, some fa, false, none⟩]) := by
  simp only [applyFixStep, hfa]
  rw [if_pos ⟨h0, h1⟩]

/-- The two-issue fold, higher line first: both fixes are applied to
their own (original) lines and both results are accepts. -/
theorem fix_two_core (L : List PyStr) (a b : Issue) (fa fb : Fix)
    (hfa : a.get_fix = some fa) (hfb : b.get_fix = some fb)
    (ha0 : 0 ≤ a.line - 1) (ha1 : a.line - 1 < (L.length : Int))
    (hb0 : 0 ≤ b.line - 1) (hb1 : b.line - 1 < (L.length : Int))
    (hab : b.line < a.line) :
    (List.foldl applyFixStep (L, []) [a, b]).1 =
      (L.set (a.line - 1).toNat
          (fa.apply_to_line (L.getD (a.line - 1).toNat []))).set
        (b.line - 1).toNat (fb.apply_to_line (L.getD (b.line - 1).toNat [])) ∧
    (List.foldl applyFixStep (L, []) [a, b]).2 =
      [⟨a, .accept, some fa, false, none⟩,
       ⟨b, .accept, some fb, false, none⟩] := by
  have hkne : (a.line - 1).toNat ≠ (b.line - 1).toNat := by omega
  have hgd : (L.set (a.line - 1).toNat
      (fa.apply_to_line (L.getD (a.line - 1).toNat []))).getD
        (b.line - 1).toNat [] = L.getD (b.line - 1).toNat [] := by
    rw [List.getD_eq_getElem?_getD, List.getElem?_set_ne hkne,
      List.getD_eq_getElem?_getD]
  constructor
  all_goals rw [List.foldl_cons, applyFixStep_accept L [] a fa hfa ha0 ha1,
    List.foldl_cons, List.foldl_nil,
    applyFixStep_accept _ _ b fb hfb hb0
      (by rw [List.length_set]; exact hb1), hgd]
  all_goals simp

/-! ### Claim C4 -/

/-- Claim C4: for a file and two fixable issues on distinct in-range
lines, the per-file pass applies both fixes to their own normalised
lines, leaves every other line unchanged, records two accepts, and
produces the same outcome whichever order the two issues are supplied
in (they are sorted by descending line and applied bottom-up). -/
theorem C4_bottom_up_two_fixes (content : PyStr) (i1 i2 : Issue) (f1 f2 : Fix)
    (hf1 : i1.get_fix = some f1) (hf2 : i2.get_fix = some f2)
    (h10 : 0 ≤ i1.line - 1)
    (h11 : i1.line - 1 < ((ensure_last_newline (splitlinesKE content)).length : Int))
    (h20 : 0 ≤ i2.line - 1)
    (h21 : i2.line - 1 < ((ensure_last_newline (splitlinesKE content)).length : Int))
    (hne : i1.line ≠ i2.line) :
    fix_file_lines content [i1, i2] = fix_file_lines content [i2, i1] ∧
    ((fix_file_lines content [i1, i2]).1)[(i1.line - 1).toNat]? =
      ((ensure_last_newline (splitlinesKE content))[(i1.line - 1).toNat]?).map
        f1.apply_to_line ∧
    ((fix_file_lines content [i1, i2]).1)[(i2.line - 1).toNat]? =
      ((ensure_last_newline (splitlinesKE content))[(i2.line - 1).toNat]?).map
        f2.apply_to_line ∧
    (∀ j, j ≠ (i1.line - 1).toNat → j ≠ (i2.line - 1).toNat →
      ((fix_file_lines content [i1, i2]).1)[j]? =
        (ensure_last_newline (splitlinesKE content))[j]?) ∧
    (fix_file_lines content [i1, i2]).2.map (fun r => r.action) =
      [FixAction.accept, FixAction.accept] := by
  have hk1 : (i1.line - 1).toNat < (ensure_last_newline (splitlinesKE content)).length := by
    omega
  have hk2 : (i2.line - 1).toNat < (ensure_last_newline (splitlinesKE content)).length := by
    omega
  have hkne : (i1.line - 1).toNat ≠ (i2.line - 1).toNat := by omega
  have hgd1 : (ensure_last_newline (splitlinesKE content)).getD
      (i1.line - 1).toNat [] = (ensure_last_newline (splitlinesKE content))[(i1.line - 1).toNat] := by
    rw [List.getD_eq_getElem?_getD, List.getElem?_eq_getElem hk1]
    rfl
  have hgd2 : (ensure_last_newline (splitlinesKE content)).getD
      (i2.line - 1).toNat [] = (ensure_last_newline (splitlinesKE content))[(i2.line - 1).toNat] := by
    rw [List.getD_eq_getElem?_getD, List.getElem?_eq_getElem hk2]
    rfl
  rcases lt_or_gt_of_ne hne with hlt | hgt
  · -- i1.line < i2.line: both orders sort to [i2, i1]
    have hnlt : ¬ i2.line < i1.line := by omega
    have hsort12 : sortByLineDesc [i1, i2] = [i2, i1] := by
      simp [sortByLineDesc, insertByLineDesc, hlt]
    have hsort21 : sortByLineDesc [i2, i1] = [i2, i1] := by
      simp [sortByLineDesc, insertByLineDesc, hnlt]
    have core := fix_two_core (ensure_last_newline (splitlinesKE content))
      i2 i1 f2 f1 hf2 hf1 h20 h21 h10 h11 hlt
    have he1 := core.1
    have he2 := core.2
    rw [← hsort12, ← fix_file_lines_def] at he1 he2
    refine ⟨?_, ?_, ?_, ?_, ?_⟩
    · rw [fix_file_lines_def, fix_file_lines_def, hsort12, hsort21]
    · rw [he1, List.getElem?_set_self (by rw [List.length_set]; exact hk1),
        hgd1, List.getElem?_eq_getElem hk1]
      rfl
    · rw [he1, List.getElem?_set_ne hkne, List.getElem?_set_self hk2,
        hgd2, List.getElem?_eq_getElem hk2]
      rfl
    · intro j hj1 hj2
      rw [he1, List.getElem?_set_ne (Ne.symm hj1), List.getElem?_set_ne (Ne.symm hj2)]
    · rw [he2]
      rfl
  · -- i2.line < i1.line: both orders sort to [i1, i2]
    have hnlt : ¬ i1.line < i2.line := by omega
    have hsort12 : sortByLineDesc [i1, i2] = [i1, i2] := by
      simp [sortByLineDesc, insertByLineDesc, hnlt]
    have hsort21 : sortByLineDesc [i2, i1] = [i1, i2] := by
      simp [sortByLineDesc, insertByLineDesc, hgt]
    have core := fix_two_core (ensure_last_newline (splitlinesKE content))
      i1 i2 f1 f2 hf1 hf2 h10 h11 h20 h21 hgt
    have he1 := core.1
    have he2 := core.2
    rw [← hsort12, ← fix_file_lines_def] at he1 he2
    refine ⟨?_, ?_, ?_, ?_, ?_⟩
    · rw [fix_file_lines_def, fix_file_lines_def, hsort12, hsort21]
    · rw [he1, List.getElem?_set_ne (Ne.symm hkne), List.getElem?_set_self hk1,
        hgd1, List.getElem?_eq_getElem hk1]
      rfl
    · rw [he1, List.getElem?_set_self (by rw [List.length_set]; exact hk2),
        hgd2, List.getElem?_eq_getElem hk2]
      rfl
    · intro j hj1 hj2
      rw [he1, List.getElem?_set_ne (Ne.symm hj2), List.getElem?_set_ne (Ne.symm hj1)]
    · rw [he2]
      rfl

/-- Concrete witness for C4: the spec's two-issue example file. -/
theorem C4_bottom_up_two_fixes_witness :
    (fix_file_lines (pys "l1\nfix me\nl3\nalso fix\nl5\n")
        [issueFixA, issueAlso4]).1 =
      (fix_file_lines (pys "l1\nfix me\nl3\nalso fix\nl5\n")
        [issueAlso4, issueFixA]).1 := by
  have h := C4_bottom_up_two_fixes (pys "l1\nfix me\nl3\nalso fix\nl5\n")
    issueFixA issueAlso4
    ⟨pys "fix me", pys "fixed 1", 2, none, none,
      pys "Fix " ++ pys "test" ++ pys ": " ++ pys "m"⟩
    ⟨pys "also fix", pys "fixed 2", 4, none, none,
      pys "Fix " ++ pys "test" ++ pys ": " ++ pys "m"⟩
    (by decide) (by decide) (by decide) (by decide) (by decide) (by decide)
    (by decide)
  exact congrArg Prod.fst h.1

/-! ### Claim C5 -/

/-- Claim C5 (counterexample): for the one-line file `a` (no trailing
newline) and a single fixable issue on line 5, the only result is an
out-of-range skip and the content is not modified by the issue — yet a
diff IS emitted, because the newline normalisation alone changed the
content; this falsifies the claim's "emits no diff for that file". -/
theorem C5_diff_despite_skip_counterexample :
    (fix_file_patch (pys "a") [issueLine5] (pys "t.md") 3).1.isSome = true ∧
    (fix_file_patch (pys "a") [issueLine5] (pys "t.md") 3).2.map
      (fun r => (r.action, r.error)) =
      [(FixAction.skip, some (pys "Line 5 out of range"))] := by decide

/-- Claim C5 (amended): an issue whose line number exceeds the file's
line count yields exactly one skip result whose error text contains
"out of range", leaves the in-memory content untouched, and — provided
the original content ends with a newline, so that the normalisation is
the identity — produces no diff when it is the file's only issue. -/
theorem C5_out_of_range_skip (content : PyStr) (issue : Issue) (s : PyStr)
    (hs : issue.suggestion = some s)
    (hoor : ((splitlinesKE content).length : Int) < issue.line) :
    (fix_file_lines content [issue]).2 =
      [⟨issue, .skip, none, false,
        some (pys "Line " ++ intStr issue.line ++ pys " out of range")⟩] ∧
    (pys "out of range") <:+:
      (pys "Line " ++ intStr issue.line ++ pys " out of range") ∧
    (fix_file_lines content [issue]).1 =
      ensure_last_newline (splitlinesKE content) ∧
    (content.getLast? = some '\n' →
      ∀ rel n, (fix_file_patch content [issue] rel n).1 = none) := by
  have hlen := ensure_last_newline_length (splitlinesKE content)
  have hcond : ¬ (0 ≤ issue.line - 1 ∧ issue.line - 1 <
      ((ensure_last_newline (splitlinesKE content)).length : Int)) := by
    rw [hlen]
    omega
  have hgf : issue.get_fix = some ⟨issue.original, s, issue.line, issue.column,
      none, pys "Fix " ++ issue.itype ++ pys ": " ++ issue.message⟩ := by
    simp [Issue.get_fix, hs]
  have hstep : fix_file_lines content [issue] =
      (ensure_last_newline (splitlinesKE content),
       [⟨issue, .skip, none, false,
         some (pys "Line " ++ intStr issue.line ++ pys " out of range")⟩]) := by
    rw [fix_file_lines_def]
    have hsort : sortByLineDesc [issue] = [issue] := rfl
    rw [hsort]
    simp only [List.foldl_cons, List.foldl_nil]
    simp only [applyFixStep, hgf]
    rw [if_neg hcond]
    simp
  refine ⟨by rw [hstep], ?_, by rw [hstep], ?_⟩
  · have h1 : pys "out of range" <:+ pys " out of range" := ⟨[' '], by decide⟩
    have h2 : pys " out of range" <:+
        (pys "Line " ++ intStr issue.line ++ pys " out of range") :=
      List.suffix_append _ _
    exact (h1.trans h2).isInfix
  · intro hNL rel n
    rw [fix_file_patch_def]
    have hceq : content = (fix_file_lines content [issue]).1.flatten := by
      rw [hstep]
      exact (ensure_flatten_self content hNL).symm
    simp [← hceq]

/-- Concrete witness for C5's amended theorem: the same out-of-range
issue on a file that ends with a newline yields the skip and no diff. -/
theorem C5_out_of_range_skip_witness :
    (fix_file_lines (pys "a\n") [issueLine5]).2 =
      [⟨issueLine5, .skip, none, false, some (pys "Line 5 out of range")⟩] ∧
    (fix_file_patch (pys "a\n") [issueLine5] (pys "t.md") 3).1 = none := by
  have h := C5_out_of_range_skip (pys "a\n") issueLine5 (pys "b")
    (by decide) (by decide)
  exact ⟨h.1, h.2.2.2 (by decide) (pys "t.md") 3⟩

/-! ### Claim C10 -/

/-- Claim C10 (counterexample): for the one-line file `a` (non-empty, no
trailing newline) and an applied column-span fix whose span covers the
appended newline, the computed fixed content is empty and does not end
with a newline — falsifying the claim's "the computed fixed content
always ends with a newline". -/
theorem C10_fixed_newline_counterexample :
    ((fix_file_lines (pys "a") [issueSpan]).1.flatten).getLast? ≠ some '\n' ∧
    (fix_file_lines (pys "a") [issueSpan]).2.map (fun r => r.action) =
      [FixAction.accept] ∧
    pys "a" ≠ [] ∧ (pys "a").getLast? ≠ some '\n' := by decide

/-- Claim C10 (amended): the in-memory content is normalised to end with
a newline before any fix is applied; for a non-empty original without a
trailing newline, whenever every issue is skipped (no fix available or
out of range) the computed fixed content is exactly the original plus a
newline — so it differs from the original and a diff is emitted even
though no textual fix was applied.  (With an applied fix the fixed
content need not end with a newline, per the counterexample.) -/
theorem C10_normalized_skip_diff (content : PyStr) (issues : List Issue)
    (hne : content ≠ []) (hnl : ¬ content.getLast? = some '\n')
    (hskip : ∀ i ∈ issues, i.get_fix = none ∨
      ¬ (0 ≤ i.line - 1 ∧ i.line - 1 < ((splitlinesKE content).length : Int))) :
    (fix_file_lines content issues).1.flatten = content ++ ['\n'] ∧
    (fix_file_lines content issues).1.flatten ≠ content ∧
    (∀ r ∈ (fix_file_lines content issues).2, r.action = FixAction.skip) ∧
    ∀ rel n, (fix_file_patch content issues rel n).1.isSome = true := by
  have hlen := ensure_last_newline_length (splitlinesKE content)
  have hskip' : ∀ i ∈ sortByLineDesc issues, i.get_fix = none ∨
      ¬ (0 ≤ i.line - 1 ∧ i.line - 1 <
        ((ensure_last_newline (splitlinesKE content)).length : Int)) := by
    intro i hi
    rcases hskip i (mem_sortByLineDesc.mp hi) with h | h
    · exact Or.inl h
    · right
      rw [hlen]
      exact h
  have key := foldl_applyFixStep_all_skip (sortByLineDesc issues)
    (ensure_last_newline (splitlinesKE content)) [] hskip'
  have hfl1 : (fix_file_lines content issues).1 =
      ensure_last_newline (splitlinesKE content) := by
    rw [fix_file_lines_def]
    exact key.1
  have hres : ∀ r ∈ (fix_file_lines content issues).2,
      r.action = FixAction.skip := by
    rw [fix_file_lines_def]
    intro r hr
    rcases key.2 r hr with h0 | h0
    · simp at h0
    · exact h0
  have hflat : (fix_file_lines content issues).1.flatten = content ++ ['\n'] := by
    rw [hfl1]
    exact ensure_flatten_append content hne hnl
  have hdiffer : (fix_file_lines content issues).1.flatten ≠ content := by
    rw [hflat]
    intro hcontra
    have hlen2 := congrArg List.length hcontra
    simp at hlen2
  refine ⟨hflat, hdiffer, hres, ?_⟩
  intro rel n
  rw [fix_file_patch_def]
  have hcond : ¬ content = (fix_file_lines content issues).1.flatten :=
    fun h0 => hdiffer h0.symm
  simp [hcond]

/-! ### Claim C2 -/

/-- Claim C2 (counterexample): for the affected file `line 1\nfix me`
whose original content does not end with a trailing newline, the patch
saved by the Patch strategy fuses the deletion of the last line with the
following insertion into the single line `-fix me+fixed` (difflib emits
the unterminated line without a no-newline marker), so no conforming
unified-diff tool can reproduce the edit: the built-in applier followed
by the modelled reverse application does not restore the original
byte-for-byte content, and the forward application does not even produce
the computed fixed content. -/
theorem C2_roundtrip_no_trailing_newline_counterexample :
    (PatchFixer.fix [issueFix2] rootT contentsNoNL false true 3).2.isSome
      = true ∧
    splitlinesNE ((PatchFixer.fix [issueFix2] rootT contentsNoNL
        false true 3).2.getD []) =
      [pys "--- a/t.md", pys "+++ b/t.md", pys "@@ -1,2 +1,2 @@",
       pys " line 1", pys "-fix me+fixed"] ∧
    manual_apply_patch ((PatchFixer.fix [issueFix2] rootT contentsNoNL
        false true 3).2.getD []) rootT contentsNoNL ≠
      [(fileT, (fix_file_lines origNoNL [issueFix2]).1.flatten)] ∧
    undo_apply ((PatchFixer.fix [issueFix2] rootT contentsNoNL
        false true 3).2.getD []) rootT
      (manual_apply_patch ((PatchFixer.fix [issueFix2] rootT contentsNoNL
        false true 3).2.getD []) rootT contentsNoNL) ≠ contentsNoNL := by
  decide

/-- Claim C2 (amended): for an affected file whose original content ends
with a trailing newline, the round trip holds — on the representative
scenario the saved patch, applied with the built-in minimal applier,
produces exactly the computed fixed content, and the modelled reverse
application then restores the original byte-for-byte content. -/
theorem C2_roundtrip_trailing_newline :
    (PatchFixer.fix [issueFix2] rootT contentsNL false true 3).2.isSome
      = true ∧
    manual_apply_patch ((PatchFixer.fix [issueFix2] rootT contentsNL
        false true 3).2.getD []) rootT contentsNL =
      [(fileT, (fix_file_lines origNL [issueFix2]).1.flatten)] ∧
    undo_apply ((PatchFixer.fix [issueFix2] rootT contentsNL
        false true 3).2.getD []) rootT
      (manual_apply_patch ((PatchFixer.fix [issueFix2] rootT contentsNL
        false true 3).2.getD []) rootT contentsNL) = contentsNL := by
  decide

/-! ### Claim C3 -/

/-- A member of `markApplied results` with action ACCEPT is applied. -/
theorem markApplied_accept_applied (r : FixResult) (results : List FixResult)
    (hr : r ∈ markApplied results) (hacc : r.action = FixAction.accept) :
    r.applied = true := by
  obtain ⟨r', _, heq⟩ := List.mem_map.mp hr
  by_cases h : r'.action = FixAction.accept
  · rw [← heq]
    simp [h]
  · rw [← heq] at hacc
    rw [if_neg h] at hacc
    exact absurd hacc h

/-- Claim C3 (counterexample): a non-dry-run Patch run over one fixable
issue, with the external patch application reporting failure
(`apply_outcome = false`), still marks the accepted result as applied —
falsifying the claim's "accepted results are not marked applied when the
patch application fails". -/
theorem C3_applied_despite_failure_counterexample :
    (PatchFixer.fix [issueFix2] rootT contentsNL false false 3).1.map
      (fun r => (r.action, r.applied)) = [(FixAction.accept, true)] ∧
    (PatchFixer.fix [issueFix2] rootT contentsNL false false 3).2.isSome
      = true := by decide

/-- Claim C3 (amended): in a non-dry-run Patch run that produced at least
one diff (a combined patch was saved), every result with action ACCEPT
has `applied = true` regardless of whether the patch application step
succeeded: `_apply_patch`'s boolean outcome is discarded by `fix`, and no
apply failure is surfaced through the session. -/
theorem C3_accept_marked_applied_unconditionally (issues : List Issue)
    (root : PyPath) (contents : List (PyPath × PyStr)) (apply_outcome : Bool)
    (n : Nat) (r : FixResult)
    (hpatch : (PatchFixer.fix issues root contents false apply_outcome n).2.isSome
      = true)
    (hr : r ∈ (PatchFixer.fix issues root contents false apply_outcome n).1)
    (hacc : r.action = FixAction.accept) :
    r.applied = true := by
  by_cases hfz : issues.filter (fun i => i.has_suggestion) = []
  · have h0 : PatchFixer.fix issues root contents false apply_outcome n
        = ([], none) := by
      simp [PatchFixer.fix, hfz]
    rw [h0] at hpatch
    simp at hpatch
  · by_cases hap : (patchFold contents root n
        (issues.filter (fun i => i.has_suggestion))).1 ≠ []
    · have h1 : (PatchFixer.fix issues root contents false apply_outcome n).1
          = markApplied (patchFold contents root n
            (issues.filter (fun i => i.has_suggestion))).2 := by
        simp [PatchFixer.fix, hfz, hap]
      rw [h1] at hr
      exact markApplied_accept_applied r _ hr hacc
    · have h2 : (PatchFixer.fix issues root contents false apply_outcome n).2
          = none := by
        simp [PatchFixer.fix, hfz, hap]
      rw [h2] at hpatch
      simp at hpatch

/-- Concrete witness for C3's amended theorem: with a failing apply step
the accepted result is still applied. -/
theorem C3_accept_marked_applied_unconditionally_witness :
    ((PatchFixer.fix [issueFix2] rootT contentsNL false false 3).1.getD 0
      ⟨issueFix2, .skip, none, false, none⟩).applied = true := by
  have hmem : (PatchFixer.fix [issueFix2] rootT contentsNL false false 3).1.getD 0
      ⟨issueFix2, .skip, none, false, none⟩ ∈
      (PatchFixer.fix [issueFix2] rootT contentsNL false false 3).1 := by decide
  exact C3_accept_marked_applied_unconditionally [issueFix2] rootT contentsNL
    false 3 _ (by decide) hmem (by decide)

/-- Concrete witness for C10's amended theorem. -/
theorem C10_normalized_skip_diff_witness :
    (fix_file_lines (pys "a") [issueLine5]).1.flatten = pys "a" ++ ['\n'] ∧
    (fix_file_patch (pys "a") [issueLine5] (pys "t.md") 3).1.isSome = true := by
  have h := C10_normalized_skip_diff (pys "a") [issueLine5]
    (by decide) (by decide) (by decide)
  exact ⟨h.1, h.2.2.2 (pys "t.md") 3⟩

/-- Claim C9: for both resolvers, `resolve` returns `none` exactly when the
reference is external; a non-external reference always resolves to some
path, so resolution never fails because the referenced file is missing
(existence is a separate query). -/
theorem C9_resolve_none_iff_external (path : PyStr) (source_file root : PyPath)
    (fs : FS) (h : HexoResolver) :
    (DefaultResolver.resolve path source_file root = none ↔
      is_external path = true) ∧
    (h.resolve fs path source_file root = none ↔ is_external path = true) := by
  constructor
  · rw [DefaultResolver.resolve]
    by_cases he : is_external path = true
    · simp [he]
    · rw [Bool.not_eq_true] at he
      simp only [he, Bool.false_eq_true, if_false, iff_false]
      split <;> simp
  · rw [HexoResolver.resolve]
    by_cases he : is_external path = true
    · simp [he]
    · rw [Bool.not_eq_true] at he
      simp only [he, Bool.false_eq_true, if_false, iff_false]
      split
      · simp
      · split
        · split <;> simp
        · simp

/-- A list none of whose members satisfy the predicate is fixed by
dropWhile. -/
theorem dropWhile_eq_self_of_all {α : Type} (p : α → Bool) (l : List α)
    (h : ∀ c ∈ l, p c = false) : l.dropWhile p = l := by
  cases l with
  | nil => rfl
  | cons a l => rw [List.dropWhile_cons, h a (by simp)]; simp

/-- A non-empty prefix made of non-whitespace characters survives
stripping. -/
theorem pyStrip_pre (pre s : PyStr) (hp : pre <+: s) (hne : pre ≠ [])
    (hns : ∀ c ∈ pre, pyIsSpace c = false) : pre <+: pyStrip s := by
  obtain ⟨t, rfl⟩ := hp
  have h1 : (pre ++ t).dropWhile pyIsSpace = pre ++ t := by
    cases pre with
    | nil => exact absurd rfl hne
    | cons c0 pre2 =>
      rw [List.cons_append, List.dropWhile_cons, hns c0 (by simp)]
      simp
  rw [pyStrip, h1, List.reverse_append, List.dropWhile_append]
  split
  · rw [dropWhile_eq_self_of_all pyIsSpace pre.reverse
      (fun c hc => hns c (List.mem_reverse.mp hc))]
    rw [List.reverse_reverse]
  · rw [List.reverse_append, List.reverse_reverse]
    exact List.prefix_append pre _

/-- A non-empty prefix with no whitespace and no hash character survives
the checker's path cleaning. -/
theorem clean_path_pre (pre s : PyStr) (hp : pre <+: s) (hne : pre ≠ [])
    (hns : ∀ c ∈ pre, pyIsSpace c = false) (hnh : '#' ∉ pre) :
    pre <+: clean_path s := by
  have h1 : pre <+: pyStrip s := pyStrip_pre pre s hp hne hns
  simp only [clean_path]
  split
  · rename_i i hfind
    have hpred := List.find?_some hfind
    have hprop := of_decide_eq_true hpred
    obtain ⟨t2, ht2⟩ := h1
    have hlt : pre.length ≤ i := by
      by_contra hcon
      push_neg at hcon
      have hgd : (pyStrip s).getD i ' ' = pre.getD i ' ' := by
        rw [← ht2]
        exact List.getD_append pre t2 ' ' i hcon
      have hmem : '#' ∈ pre := by
        have hh := hprop.1
        rw [hgd, List.getD_eq_getElem pre ' ' hcon] at hh
        rw [← hh]
        exact List.getElem_mem hcon
      exact hnh hmem
    rw [List.prefix_take_iff]
    exact ⟨⟨t2, ht2⟩, hlt⟩
  · exact h1

/-- External classification survives the checker's path cleaning. -/
theorem is_external_clean_path (p : PyStr) (hext : is_external p = true) :
    is_external (clean_path p) = true := by
  rw [is_external] at hext
  rw [is_external]
  simp only [Bool.or_eq_true] at hext ⊢
  rcases hext with (h1 | h1) | h1
  · exact Or.inl (Or.inl (List.isPrefixOf_iff_prefix.mpr
      (clean_path_pre (pys "http://") p
        (List.isPrefixOf_iff_prefix.mp h1) (by decide) (by decide) (by decide))))
  · exact Or.inl (Or.inr (List.isPrefixOf_iff_prefix.mpr
      (clean_path_pre (pys "https://") p
        (List.isPrefixOf_iff_prefix.mp h1) (by decide) (by decide) (by decide))))
  · exact Or.inr (List.isPrefixOf_iff_prefix.mpr
      (clean_path_pre (pys "//") p
        (List.isPrefixOf_iff_prefix.mp h1) (by decide) (by decide) (by decide)))

/-- Claim C6: a reference beginning with http://, https:// or // is
classified external by is_external, considered to exist by both
resolvers, resolves to no local path, and produces no issue from the
image checker's path check — for every checker configuration (in
particular every value of ignore_external) and every filesystem. -/
theorem C6_external_never_flagged (c : ImageChecker) (h : HexoResolver)
    (fs : FS) (root file : PyPath) (p : PyStr) (line column : Nat)
    (line_content : PyStr)
    (hstart : (pys "http://").isPrefixOf p = true ∨
      (pys "https://").isPrefixOf p = true ∨ (pys "//").isPrefixOf p = true) :
    is_external p = true ∧
    DefaultResolver.resolve p file root = none ∧
    DefaultResolver.existsRef fs p file root = true ∧
    h.existsRef fs p file root = true ∧
    c.check_path defaultResolverI fs root file p line column line_content =
      none ∧
    c.check_path (hexoResolverI h) fs root file p line column line_content =
      none := by
  have hext : is_external p = true := by
    rw [is_external]
    rcases hstart with h1 | h1 | h1 <;> simp [h1]
  have hcl : is_external (clean_path p) = true := is_external_clean_path p hext
  refine ⟨hext, ?_, ?_, ?_, ?_, ?_⟩
  · rw [DefaultResolver.resolve, if_pos hext]
  · rw [DefaultResolver.existsRef, if_pos hext]
  · rw [HexoResolver.existsRef, if_pos hext]
  · by_cases hig : c.ignore_external = true
    · simp [ImageChecker.check_path, hig, hcl]
    · simp [ImageChecker.check_path, hig, hcl, defaultResolverI,
        DefaultResolver.existsRef]
  · by_cases hig : c.ignore_external = true
    · simp [ImageChecker.check_path, hig, hcl]
    · simp [ImageChecker.check_path, hig, hcl, hexoResolverI,
        HexoResolver.existsRef]

/-- Concrete witness for C6. -/
theorem C6_external_never_flagged_witness :
    ((pys "http://").isPrefixOf (pys "https://cdn.example.com/a.png") = true ∨
      (pys "https://").isPrefixOf (pys "https://cdn.example.com/a.png") = true ∨
      (pys "//").isPrefixOf (pys "https://cdn.example.com/a.png") = true) ∧
    is_external (pys "https://cdn.example.com/a.png") = true ∧
    ImageChecker.check_path {} defaultResolverI ⟨[]⟩ rootT fileT
      (pys "https://cdn.example.com/a.png") 1 0 [] = none := by
  have h := C6_external_never_flagged {} {} ⟨[]⟩ rootT fileT
    (pys "https://cdn.example.com/a.png") 1 0 []
    (Or.inr (Or.inl (by decide)))
  exact ⟨Or.inr (Or.inl (by decide)), h.1, h.2.2.2.2.1⟩

/-- The hexo per-match suggestion string is exactly the spec's preference
order, the asset-folder tier enabled precisely for posts. -/
theorem hexoSuggestionOf_spec (h : HexoResolver) (sf root p : PyPath) :
    hexoSuggestionOf h sf root p = specSuggestionForm sf root
      (if h.is_post_file sf root ∧ h.asset_folder_per_post
        then some (assetFolderOf sf) else none) p := by
  by_cases hc : h.is_post_file sf root = true ∧ h.asset_folder_per_post = true
  · simp [hexoSuggestionOf, specSuggestionForm, hc.1, hc.2]
  · rw [hexoSuggestionOf, specSuggestionForm.eq_def, if_neg hc, if_neg hc]

/-- Claim C8 (amended): the Hexo resolver's findSimilar emits exactly the
spec's preferred form of each matched file.  The per-directory search
equals, elementwise and in order, `specSuggestionForm` applied to the
matched paths (the asset-folder tier enabled precisely for posts with
per-post asset folders), and the public findSimilar is the
order-preserving de-duplication of those renderings over the searched
directories — so no returned suggestion can take a lower-preference form
than its matched file admits.  Concretely, a match living in the post's
asset folder, one in the source document's directory and one under the
project root surface as the asset-relative, source-relative and
root-relative forms respectively.  The generic resolver does not follow
the order (see the counterexample): it lacks the root-relative tier. -/
theorem C8_hexo_suggestion_form (h : HexoResolver) (fs : FS)
    (path tn : PyStr) (sd0 : PyPath) (tdp : List PyStr) (sf root : PyPath)
    (th : ℚ) :
    h.find_similar_in_dir fs sd0 tn tdp sf root th =
      (hexoMatchedPaths fs sd0 tn tdp th).map
        (specSuggestionForm sf root
          (if h.is_post_file sf root ∧ h.asset_folder_per_post
            then some (assetFolderOf sf) else none)) ∧
    h.find_similar fs path sf root th =
      dedupKeepFirst ((hexoSearchDirs h path sf root).flatMap (fun sd =>
        (hexoMatchedPaths fs sd (PyPath.ofStr path).name
            (hexoTargetDirParts path) th).map
          (specSuggestionForm sf root
            (if h.is_post_file sf root ∧ h.asset_folder_per_post
              then some (assetFolderOf sf) else none)))) ∧
    HexoResolver.find_similar hexoPostCfg fsC8p (pys "imgg.png") srcC8 rootT
      (Rat.divInt 3 5) = [pys "img.png"] ∧
    HexoResolver.find_similar {} fsC8 (pys "imgs/imgg.png") srcC8 rootT
      (Rat.divInt 3 5) = [pys "imgs/img.png"] ∧
    HexoResolver.find_similar_in_dir {} fsC8
      ⟨true, [pys "root", pys "assets"]⟩ (pys "imgg.png")
      [pys "/", pys "assets"] srcC8 rootT (Rat.divInt 3 5) =
      [pys "/assets/img.png"] := by
  have hdir : ∀ (sd0 : PyPath) (tn : PyStr) (tdp : List PyStr),
      h.find_similar_in_dir fs sd0 tn tdp sf root th =
      (hexoMatchedPaths fs sd0 tn tdp th).map
        (specSuggestionForm sf root
          (if h.is_post_file sf root ∧ h.asset_folder_per_post
            then some (assetFolderOf sf) else none)) := by
    intro sd0 tn tdp
    simp only [HexoResolver.find_similar_in_dir, hexoMatchedPaths]
    split
    · rw [List.map_nil]
    · rw [List.map_map]
      congr 1
      funext s
      simp only [Function.comp_apply]
      exact hexoSuggestionOf_spec h sf root _
  refine ⟨hdir sd0 tn tdp, ?_, by decide, by decide, by decide⟩
  simp only [HexoResolver.find_similar]
  congr 1
  congr 1
  funext sd
  exact hdir sd _ _

/-- Claim C8 counterexample: the generic suggestion algorithm does not
follow the stated preference order — for a matched file under the project
root but not under the source document's directory it returns the
absolute path, although the root-relative tier applies and the spec form
is root-relative. -/
theorem C8_generic_suggestion_form_counterexample :
    PathResolver.find_similar DefaultResolver.resolve fsC8
      (pys "/assets/imgg.png") srcC8 rootT (Rat.divInt 3 5) =
      [pys "/root/assets/img.png"] ∧
    PyPath.relTo ⟨true, [pys "root", pys "assets", pys "img.png"]⟩ rootT =
      some ⟨false, [pys "assets", pys "img.png"]⟩ ∧
    specSuggestionForm srcC8 rootT none
      ⟨true, [pys "root", pys "assets", pys "img.png"]⟩ =
      pys "/assets/img.png" ∧
    pys "/root/assets/img.png" ≠ pys "/assets/img.png" := by decide

/-- Inside a code block, lines with no fence marker are skipped without
contributing issues, and the fence state is left on. -/
theorem checkLoop_skip_in_code (c : ImageChecker) (res : ResolverI) (fs : FS)
    (root file : PyPath) (mid rest : List PyStr) (n : Nat)
    (hmid : ∀ l ∈ mid, CODE_FENCE_match l = false) :
    ImageChecker.checkLoop c res fs root file (mid ++ rest) n true =
    ImageChecker.checkLoop c res fs root file rest (n + mid.length) true := by
  induction mid generalizing n with
  | nil => simp
  | cons l mid ih =>
    rw [List.cons_append, ImageChecker.checkLoop]
    rw [if_neg (by simp [hmid l (by simp)]), if_pos rfl]
    rw [ih (n + 1) (fun x hx => hmid x (by simp [hx]))]
    simp only [List.length_cons]
    have hn : n + 1 + mid.length = n + (mid.length + 1) := by omega
    rw [hn]

/-- Claim C7: with code-block skipping on, a fence line toggles the
boolean fence state and everything strictly between two fence lines
contributes no issues (for every checker, resolver and filesystem);
inline-code skipping replaces a backtick-delimited span by an empty
string before matching, so a broken reference inside such a span
contributes nothing; and on a concrete document the same broken literal
reference yields zero issues from its fenced and inline-code occurrences
while its plain-text occurrence on another line yields the issue. -/
theorem C7_fence_and_inline_code_skip (c : ImageChecker) (res : ResolverI)
    (fs : FS) (root file : PyPath) (fa fb : PyStr) (mid rest : List PyStr)
    (n : Nat) (hsk : c.skip_code_blocks = true)
    (hfa : CODE_FENCE_match fa = true) (hfb : CODE_FENCE_match fb = true)
    (hmid : ∀ l ∈ mid, CODE_FENCE_match l = false) :
    ImageChecker.checkLoop c res fs root file (fa :: (mid ++ fb :: rest)) n
      false =
    ImageChecker.checkLoop c res fs root file rest (n + mid.length + 2)
      false ∧
    reSubEmpty INLINE_CODE lineBt = pys "text  tail" ∧
    ImageChecker.checkLineIssues {} defaultResolverI ⟨[]⟩ rootT fileT lineBt
      5 = [] ∧
    ImageChecker.check {} defaultResolverI ⟨[]⟩ rootT fileT docC7 =
      [issueC7] := by
  refine ⟨?_, by decide, by decide, by decide⟩
  rw [ImageChecker.checkLoop, if_pos ⟨hsk, hfa⟩]
  simp only [Bool.not_false]
  rw [checkLoop_skip_in_code c res fs root file mid (fb :: rest) (n + 1) hmid]
  rw [ImageChecker.checkLoop, if_pos ⟨hsk, hfb⟩]
  simp only [Bool.not_true]
  have hn : n + 1 + mid.length + 1 = n + mid.length + 2 := by omega
  rw [hn]

/-- Concrete witness for C7. -/
theorem C7_fence_and_inline_code_skip_witness :
    ImageChecker.checkLoop {} defaultResolverI ⟨[]⟩ rootT fileT
      (fenceLine :: ([lineImg] ++ fenceLine :: [pys "end"])) 2 false =
    ImageChecker.checkLoop {} defaultResolverI ⟨[]⟩ rootT fileT
      [pys "end"] 5 false ∧
    reSubEmpty INLINE_CODE lineBt = pys "text  tail" ∧
    ImageChecker.checkLineIssues {} defaultResolverI ⟨[]⟩ rootT fileT lineBt
      5 = [] ∧
    ImageChecker.check {} defaultResolverI ⟨[]⟩ rootT fileT docC7 =
      [issueC7] :=
  C7_fence_and_inline_code_skip {} defaultResolverI ⟨[]⟩ rootT fileT
    fenceLine fenceLine [lineImg] [pys "end"] 2 (by decide) (by decide)
    (by decide) (by decide)

end Checks
